import Mathlib

/-!
Error documentation of quick-lint-js: parsing and cross-validation

A shallow embedding of `website/src/error-documentation.mjs`.

* JavaScript strings are modelled by `String`; the characters the title
  pattern looks at (`:`, white space, line terminators) all lie in the basic
  plane, so matching by code point and matching by UTF-16 code unit agree on
  them.  The comparison `<` of the sort works on UTF-16 code units.
* Arrays are lists; `push` appends at the end.
* The collaborators that live outside the file are parameters:
  `basename` is `path.basename`, `parse` is `markdownParser.parse`,
  `lint` is the diagnostics the quick-lint-js engine reports for a text,
  `escapeHtml` is `markdownParser.utils.escapeHtml`, and `defaultRender` is
  what markdown-it renders by itself.
-/

namespace ErrorDocs

/-! ## Data model -/

/-- A markdown-it token, restricted to the fields the code reads. -/
structure Token where
  type : String
  tag : String := ""
  content : String := ""
  info : String := ""
deriving DecidableEq, Repr

/-- A diagnostic reported by the engine; only `code` is read. -/
structure Diagnostic where
  code : String
deriving DecidableEq, Repr

/-- The object built by the constructor of `class ErrorDocumentation`. -/
structure ErrorDocumentation where
  codeBlocks : List String
  filePath : String
  markdownTokens : List Token
  titleErrorCode : String
  titleErrorDescription : String
deriving DecidableEq, Repr

/-- Getter `filePathErrorCode`: `path.basename(this.filePath, ".md")`. -/
def ErrorDocumentation.filePathErrorCode (basename : String → String → String)
    (doc : ErrorDocumentation) : String :=
  basename doc.filePath ".md"

/-! ## The title pattern `/^(?<code>.*):\s*(?<description>.*)$/` -/

/-- ECMAScript LineTerminator: the characters `.` does not match. -/
def isLineTerminator (c : Char) : Bool :=
  c.toNat = 0x0A || c.toNat = 0x0D || c.toNat = 0x2028 || c.toNat = 0x2029

/-- ECMAScript `\s`: WhiteSpace and LineTerminator code points. -/
def isWhiteSpace (c : Char) : Bool :=
  c.toNat = 0x09 || c.toNat = 0x0A || c.toNat = 0x0B || c.toNat = 0x0C || c.toNat = 0x0D ||
  c.toNat = 0x20 || c.toNat = 0xA0 || c.toNat = 0x1680 ||
  (0x2000 ≤ c.toNat && c.toNat ≤ 0x200A) ||
  c.toNat = 0x2028 || c.toNat = 0x2029 || c.toNat = 0x202F || c.toNat = 0x205F ||
  c.toNat = 0x3000 || c.toNat = 0xFEFF

/-- The tail `(?<description>.*)$` of the pattern at the current position: the
greedy `.*` has to reach the end of the input, so it matches exactly when no
line terminator remains, and then captures all that remains. -/
def matchDescription (s : List Char) : Option (List Char) :=
  if s.all (fun c => !isLineTerminator c) then some s else none

/-- The part `\s*(?<description>.*)$` of the pattern at the current position.
The greedy `\s*` first tries to take one more white space character and
backtracks to stopping where it is when the rest then fails. -/
def matchSpaces : List Char → Option (List Char)
  | [] => matchDescription []
  | c :: cs =>
    if isWhiteSpace c then
      match matchSpaces cs with
      | some description => some description
      | none => matchDescription (c :: cs)
    else matchDescription (c :: cs)

/-- The part `(?<code>.*):\s*(?<description>.*)$` at the current position, the
characters already taken by `code` left out.  The greedy `.*` first tries to
take one more character that is no line terminator and backtracks to stopping
where it is, where a colon must follow. -/
def matchCode : List Char → Option (List Char × List Char)
  | [] => none
  | c :: cs =>
    let longer : Option (List Char × List Char) :=
      if isLineTerminator c then none
      else (matchCode cs).map (fun r => (c :: r.1, r.2))
    match longer with
    | some r => some r
    | none =>
      if c = ':' then (matchSpaces cs).map (fun description => ([], description))
      else none

/-- The call `currentBlock.match(/^(?<code>.*):\s*(?<description>.*)$/)`: `none` is
`null`, otherwise the groups `code` and `description`.  Without the `m` flag
`^` holds only at index 0, so the match starts there or nowhere. -/
def titleMatch (currentBlock : String) : Option (String × String) :=
  (matchCode currentBlock.data).map (fun r => (String.mk r.1, String.mk r.2))

/-! ## `ErrorDocumentation.parseString` -/

/-- The local variables of `parseString` that the loop over the tokens updates.
`currentBlock` is declared without a value in the source; it is read and
appended to only under `inTitle`, and `inTitle` becomes true only in the branch
that assigns `""` to `currentBlock`, so the model starts it at `""`. -/
structure ParseState where
  codeBlocks : List String := []
  titleErrorCode : String := ""
  titleErrorDescription : String := ""
  inTitle : Bool := false
  currentBlock : String := ""
deriving DecidableEq, Repr

/-- One iteration of `for (let token of tokens)`: the `switch (token.type)`. -/
def parseToken (st : ParseState) (token : Token) : ParseState :=
  if token.type = "heading_open" then
    if token.tag = "h1" then { st with inTitle := true, currentBlock := "" } else st
  else if token.type = "heading_close" then
    if st.inTitle then
      match titleMatch st.currentBlock with
      | some (code, description) =>
        { st with titleErrorCode := code, titleErrorDescription := description }
      | none => st
    else st
  else if token.type = "code_block" ∨ token.type = "fence" then
    { st with codeBlocks := st.codeBlocks ++ [token.content] }
  else if token.type = "inline" then
    if st.inTitle then { st with currentBlock := st.currentBlock ++ token.content } else st
  else st

/-- The loop of `parseString` run from a given state. -/
def parseTokens (st : ParseState) (tokens : List Token) : ParseState :=
  tokens.foldl parseToken st

/-- `ErrorDocumentation.parseString(filePath, markdown)`. -/
def parseString (parse : String → List Token) (filePath markdown : String) :
    ErrorDocumentation :=
  let tokens := parse markdown
  let st := parseTokens {} tokens
  { codeBlocks := st.codeBlocks
    filePath := filePath
    markdownTokens := tokens
    titleErrorCode := st.titleErrorCode
    titleErrorDescription := st.titleErrorDescription }

/-! ## The engine as seen by the validator -/

/-- A parser session of the engine: its identity and the text it holds. -/
structure Parser where
  id : Nat
  text : String
deriving DecidableEq, Repr

/-- The engine process created for one document: how many parser sessions it
has handed out, and every `lint` call so far as (session, text linted). -/
structure LintProcess where
  parsersCreated : Nat := 0
  lintCalls : List (Nat × String) := []
deriving DecidableEq, Repr

/-- `process.createParserAsync()`: a new session holding the empty text. -/
def LintProcess.createParserAsync (process : LintProcess) : Parser × LintProcess :=
  ({ id := process.parsersCreated, text := "" },
   { process with parsersCreated := process.parsersCreated + 1 })

/-- `parser.replaceText(range, text)` for the one range the code passes, the
empty range at line 0, character 0: `text` is inserted at the start. -/
def Parser.replaceText (parser : Parser) (text : String) : Parser :=
  { parser with text := text ++ parser.text }

/-- `parser.lint()`: the diagnostics of the session's text; the call is logged. -/
def Parser.lint (lint : String → List Diagnostic) (parser : Parser)
    (process : LintProcess) : List Diagnostic × LintProcess :=
  (lint parser.text,
   { process with lintCalls := process.lintCalls ++ [(parser.id, parser.text)] })

/-! ## `analyzeErrorDocumentationAsync` -/

/-- What a run of the validator changes: the caller's problem list and the
engine process. -/
structure AnalysisState where
  foundProblems : List String
  process : LintProcess
deriving DecidableEq, Repr

/-- The loop `for (let diag of diagnostics)` over the first block's diagnostics. -/
def checkFirstBlockDiagnostics (doc : ErrorDocumentation) :
    List Diagnostic → List String → List String
  | [], foundProblems => foundProblems
  | diag :: diagnostics, foundProblems =>
    checkFirstBlockDiagnostics doc diagnostics
      (if diag.code ≠ doc.titleErrorCode then
        foundProblems ++ [doc.filePath ++ ": error: expected only " ++ doc.titleErrorCode ++
          " errors in first code block but found " ++ diag.code]
      else foundProblems)

/-- The body of `for (let i = 0; i < doc.codeBlocks.length; ++i)`, with
`codeBlock` standing for `doc.codeBlocks[i]`. -/
def analyzeCodeBlock (lint : String → List Diagnostic) (doc : ErrorDocumentation)
    (i : Nat) (codeBlock : String) (st : AnalysisState) : AnalysisState :=
  let (parser, process) := st.process.createParserAsync
  let parser := parser.replaceText codeBlock
  let (diagnostics, process) := parser.lint lint process
  let expectDiagnostic : Bool := i = 0
  if expectDiagnostic then
    if diagnostics.length = 0 then
      { foundProblems := st.foundProblems ++
          [doc.filePath ++ ": error: expected error in first code block but found no errors"]
        process := process }
    else
      { foundProblems := checkFirstBlockDiagnostics doc diagnostics st.foundProblems
        process := process }
  else
    if diagnostics.length ≠ 0 then
      { foundProblems := st.foundProblems ++
          [doc.filePath ++ ": error: expected no error in code block #" ++ toString (i + 1) ++
            " but found errors"]
        process := process }
    else
      { foundProblems := st.foundProblems, process := process }

/-- The loop `for (let i = 0; i < doc.codeBlocks.length; ++i)` from index `i`
on, `codeBlocks` being the blocks at the indices `i`, `i + 1`, ... -/
def analyzeCodeBlocks (lint : String → List Diagnostic) (doc : ErrorDocumentation) :
    Nat → List String → AnalysisState → AnalysisState
  | _, [], st => st
  | i, codeBlock :: codeBlocks, st =>
    analyzeCodeBlocks lint doc (i + 1) codeBlocks (analyzeCodeBlock lint doc i codeBlock st)

/-- `analyzeErrorDocumentationAsync(doc, foundProblems)`.  The result holds the
problem list after the call and the engine process the call created. -/
def analyzeErrorDocumentationAsync (basename : String → String → String)
    (lint : String → List Diagnostic) (doc : ErrorDocumentation)
    (foundProblems : List String) : AnalysisState :=
  let foundProblems :=
    if doc.titleErrorCode ≠ doc.filePathErrorCode basename then
      foundProblems ++ [doc.filePath ++ ": error: file name doesn't match error code in title (" ++
        doc.titleErrorCode ++ ")"]
    else foundProblems
  let foundProblems :=
    if doc.codeBlocks.length = 0 then
      foundProblems ++ [doc.filePath ++ ": error: missing code blocks"]
    else foundProblems
  let process : LintProcess := {}
  analyzeCodeBlocks lint doc 0 doc.codeBlocks { foundProblems := foundProblems, process := process }

/-- The validation loop of `loadAndAnalyzeDocumentFilesToHTMLAsync`:
`let foundProblems = []; for (let doc of documents) await analyze...(doc, foundProblems)`. -/
def analyzeDocuments (basename : String → String → String)
    (lint : String → List Diagnostic) (documents : List ErrorDocumentation) : List String :=
  documents.foldl
    (fun foundProblems doc =>
      (analyzeErrorDocumentationAsync basename lint doc foundProblems).foundProblems) []

/-! ## The render rules and `toHTML` -/

/-- The text that `result += value` appends; `none` is the `undefined` that a
rule returns when it ends without `return`. -/
def appendedText : Option String → String
  | some text => text
  | none => "undefined"

/-- Rule `heading_open` of `markdownParser.renderer.rules`, with `token` for
`tokens[tokenIndex]` and `doc` for `env.doc`. -/
def heading_open (doc : ErrorDocumentation) (token : Token) : Option String :=
  if token.tag = "h1" then
    some ("<h2><a class='self-reference' href='#" ++ doc.titleErrorCode ++ "'>")
  else none

/-- Rule `heading_close` of `markdownParser.renderer.rules`. -/
def heading_close (token : Token) : Option String :=
  if token.tag = "h1" then some "</a></h2>" else none

/-- Rule `code_block` of `markdownParser.renderer.rules`; `escapeHtml` is
`markdownParser.utils.escapeHtml`. -/
def code_block (escapeHtml : String → String) (token : Token) : Option String :=
  some ("<figure><pre><code>" ++ escapeHtml token.content ++ "</code></pre></figure>")

/-- Rule `fence` of `markdownParser.renderer.rules`: `this.code_block(...)`. -/
def fence (escapeHtml : String → String) (token : Token) : Option String :=
  code_block escapeHtml token

/-- Modelled from the spec: the replacement that `markdownParser.utils.escapeHtml`
makes for one character.  The helper belongs to markdown-it and is not in the
source file; the spec calls its result the HTML-escaped content.  As in
markdown-it, `&`, `<`, `>` and `"` become their entities. -/
def escapeHtmlChar (c : Char) : List Char :=
  if c = '&' then ['&', 'a', 'm', 'p', ';']
  else if c = '<' then ['&', 'l', 't', ';']
  else if c = '>' then ['&', 'g', 't', ';']
  else if c = '"' then ['&', 'q', 'u', 'o', 't', ';']
  else [c]

/-- Modelled from the spec: `markdownParser.utils.escapeHtml`, which replaces
every `&`, `<`, `>` and `"` of the text. -/
def escapeHtml (text : String) : String :=
  String.mk (text.data.flatMap escapeHtmlChar)

/-- Modelled from the spec: what one round of the loop of markdown-it's
`Renderer.render` appends for the token at index `i`.  The renderer is not in
the source file.  A kind that has an entry in `rules` is rendered by that entry
and the value it returns is appended with `+=`; `defaultRender tokens i` is what
markdown-it appends by itself: `renderInline` of the children for an `inline`
token, and for a kind the file does not override markdown-it's own rule or
`renderToken`. -/
def renderedText (escapeHtml : String → String) (defaultRender : List Token → Nat → String)
    (doc : ErrorDocumentation) (tokens : List Token) (i : Nat) (token : Token) : String :=
  if token.type = "inline" then defaultRender tokens i
  else if token.type = "heading_open" then appendedText (heading_open doc token)
  else if token.type = "heading_close" then appendedText (heading_close token)
  else if token.type = "code_block" then appendedText (code_block escapeHtml token)
  else if token.type = "fence" then appendedText (fence escapeHtml token)
  else defaultRender tokens i

/-- Modelled from the spec: the loop of markdown-it's `Renderer.render` from
index `i` on, `rest` being the tokens at the indices `i`, `i + 1`, ... -/
def renderFrom (escapeHtml : String → String) (defaultRender : List Token → Nat → String)
    (doc : ErrorDocumentation) (tokens : List Token) : Nat → List Token → String → String
  | _, [], result => result
  | i, token :: rest, result =>
    renderFrom escapeHtml defaultRender doc tokens (i + 1) rest
      (result ++ renderedText escapeHtml defaultRender doc tokens i token)

/-- Method `toHTML`: `markdownParser.renderer.render(this._markdownTokens,
markdownParser.options, { doc: this })`. -/
def ErrorDocumentation.toHTML (escapeHtml : String → String)
    (defaultRender : List Token → Nat → String) (doc : ErrorDocumentation) : String :=
  renderFrom escapeHtml defaultRender doc doc.markdownTokens 0 doc.markdownTokens ""

/-! ## `loadAndAnalyzeDocumentFilesToHTMLAsync` -/

/-- The UTF-16 code units of a character. -/
def utf16CodeUnits (c : Char) : List Nat :=
  if c.toNat < 0x10000 then [c.toNat]
  else [0xD800 + (c.toNat - 0x10000) / 0x400, 0xDC00 + (c.toNat - 0x10000) % 0x400]

/-- A string as JavaScript holds it: its sequence of UTF-16 code units. -/
def toCodeUnits (text : String) : List Nat :=
  text.data.flatMap utf16CodeUnits

/-- The comparison `a < b` of two strings given by their code units: a proper
prefix is less, otherwise the first differing code unit decides. -/
def codeUnitsLess : List Nat → List Nat → Bool
  | _, [] => false
  | [], _ :: _ => true
  | a :: as, b :: bs =>
    if a < b then true else if b < a then false else codeUnitsLess as bs

/-- The JavaScript comparison `a < b` of two strings. -/
def stringLess (a b : String) : Bool :=
  codeUnitsLess (toCodeUnits a) (toCodeUnits b)

/-- The comparator passed to `documents.sort`. -/
def compareDocuments (basename : String → String → String)
    (a b : ErrorDocumentation) : Int :=
  if stringLess (a.filePathErrorCode basename) (b.filePathErrorCode basename) then -1
  else if stringLess (b.filePathErrorCode basename) (a.filePathErrorCode basename) then 1
  else 0

/-- The call `documents.sort(...)`.  `Array.prototype.sort` is a stable sort; it
is modelled by the stable insertion sort, which places a document before the
first one it does not compare greater than. -/
def sortDocuments (basename : String → String → String)
    (documents : List ErrorDocumentation) : List ErrorDocumentation :=
  documents.insertionSort (fun a b => compareDocuments basename a b ≤ 0)

/-- `loadAndAnalyzeDocumentFilesToHTMLAsync()`, with `loaded` for the documents
that `loadErrorDocumentationFilesAsync(documentationDirectoryPath)` returns.
`Except.error message` is `throw new Error(message)`. -/
def loadAndAnalyzeDocumentFilesToHTMLAsync (basename : String → String → String)
    (lint : String → List Diagnostic) (escapeHtml : String → String)
    (defaultRender : List Token → Nat → String) (documentationDirectoryPath : String)
    (loaded : List ErrorDocumentation) : Except String String :=
  let documents := loaded
  if documents.length = 0 then
    Except.error ("found no .md files in " ++ documentationDirectoryPath)
  else
    let documents := sortDocuments basename documents
    let foundProblems := analyzeDocuments basename lint documents
    if foundProblems.length ≠ 0 then
      Except.error ("found problems in error documents:\n" ++ "\n".intercalate foundProblems)
    else
      Except.ok (String.join (documents.map (fun doc => doc.toHTML escapeHtml defaultRender)))

/-! ## Auxiliary facts about the title pattern -/

theorem matchDescription_of_noLT (s : List Char)
    (h : ∀ ch ∈ s, isLineTerminator ch = false) : matchDescription s = some s := by
  unfold matchDescription
  rw [if_pos]
  simp only [List.all_eq_true, Bool.not_eq_true']
  exact h

theorem matchDescription_eq_some {s d : List Char} (h : matchDescription s = some d) :
    d = s ∧ ∀ ch ∈ s, isLineTerminator ch = false := by
  unfold matchDescription at h
  split at h
  · rename_i hall
    simp only [List.all_eq_true, Bool.not_eq_true'] at hall
    exact ⟨(Option.some.inj h).symm, hall⟩
  · exact absurd h (by simp)

theorem matchDescription_cons_none {c : Char} {cs : List Char}
    (h : matchDescription cs = none) : matchDescription (c :: cs) = none := by
  unfold matchDescription at h ⊢
  split at h
  · exact absurd h (by simp)
  · rename_i hall
    rw [if_neg]
    intro hc
    apply hall
    simp only [List.all_cons, Bool.and_eq_true] at hc
    exact hc.2

theorem matchDescription_dropWhile_none {p : Char → Bool} (s : List Char)
    (h : matchDescription (s.dropWhile p) = none) : matchDescription s = none := by
  induction s with
  | nil => simpa using h
  | cons c cs ih =>
    by_cases hp : p c = true
    · rw [List.dropWhile_cons_of_pos hp] at h
      exact matchDescription_cons_none (ih h)
    · rw [List.dropWhile_cons_of_neg hp] at h
      exact h

/-- The greedy `\s*` always ends up taking the whole run of white space. -/
theorem matchSpaces_eq (s : List Char) :
    matchSpaces s = matchDescription (s.dropWhile isWhiteSpace) := by
  induction s with
  | nil => simp [matchSpaces]
  | cons c cs ih =>
    unfold matchSpaces
    by_cases hc : isWhiteSpace c = true
    · rw [if_pos hc, List.dropWhile_cons_of_pos hc, ih]
      cases hd : matchDescription (cs.dropWhile isWhiteSpace) with
      | some d => rfl
      | none =>
        exact matchDescription_cons_none (matchDescription_dropWhile_none cs hd)
    · rw [if_neg hc, List.dropWhile_cons_of_neg hc]

theorem matchCode_none_of_no_colon (s : List Char) (h : ∀ ch ∈ s, ch ≠ ':') :
    matchCode s = none := by
  induction s with
  | nil => rfl
  | cons c cs ih =>
    have hcs : matchCode cs = none := ih (fun ch hch => h ch (List.mem_cons_of_mem _ hch))
    have hc : c ≠ ':' := h c (List.mem_cons_self _ _)
    unfold matchCode
    simp [hcs, hc]

/-- On a text without line terminator that holds a colon, the pattern matches. -/
theorem matchCode_isSome_of_colon (s : List Char)
    (hlt : ∀ ch ∈ s, isLineTerminator ch = false) (hcolon : ':' ∈ s) :
    (matchCode s).isSome = true := by
  induction s with
  | nil => simp at hcolon
  | cons c cs ih =>
    have hc : isLineTerminator c = false := hlt c (List.mem_cons_self _ _)
    have hcs : ∀ ch ∈ cs, isLineTerminator ch = false :=
      fun ch hch => hlt ch (List.mem_cons_of_mem _ hch)
    unfold matchCode
    cases hm : matchCode cs with
    | some r => simp [hc]
    | none =>
      have hnot : ':' ∉ cs := by
        intro hmem
        have := ih hcs hmem
        rw [hm] at this
        exact absurd this (by simp)
      have hceq : c = ':' := by
        rcases List.mem_cons.mp hcolon with h | h
        · exact h.symm
        · exact absurd h hnot
      have hdrop : ∀ ch ∈ cs.dropWhile isWhiteSpace, isLineTerminator ch = false :=
        fun ch hch => hcs ch ((List.dropWhile_suffix _).subset hch)
      simp [hc, hceq, matchSpaces_eq, matchDescription_of_noLT _ hdrop]

/-- What a match of the title pattern captures: the text splits as
`code`, a colon, a run `w` of white space and `description`. -/
theorem matchCode_eq_some (s code description : List Char)
    (h : matchCode s = some (code, description)) :
    ∃ w : List Char, s = code ++ ':' :: (w ++ description) ∧
      (∀ ch ∈ w, isWhiteSpace ch = true) ∧
      (∀ ch ∈ code, isLineTerminator ch = false) ∧
      (∀ ch ∈ description, isLineTerminator ch = false) ∧
      (∀ ch, description.head? = some ch → isWhiteSpace ch = false) ∧
      ((∀ ch ∈ w, isLineTerminator ch = false) → ':' ∉ description) := by
  induction s generalizing code with
  | nil => simp [matchCode] at h
  | cons c cs ih =>
    unfold matchCode at h
    by_cases hc : isLineTerminator c = true
    · -- `.` cannot take `c`, and `c` is no colon
      have hne : c ≠ ':' := by
        intro hceq
        rw [hceq] at hc
        exact absurd hc (by decide)
      simp [hc, hne] at h
    · have hc' : isLineTerminator c = false := by simpa using hc
      cases hm : matchCode cs with
      | some r =>
        simp only [hc', hm, Bool.false_eq_true, if_false, Option.map_some', Option.some.injEq,
          Prod.mk.injEq] at h
        obtain ⟨hcode, hdesc⟩ := h
        obtain ⟨w, hs, hw, hcl, hdl, hhead, hlast⟩ := ih r.1 (by rw [hm, ← hdesc])
        refine ⟨w, ?_, hw, ?_, hdl, hhead, hlast⟩
        · rw [← hcode, hs]; rfl
        · intro ch hch
          rw [← hcode] at hch
          rcases List.mem_cons.mp hch with h1 | h1
          · rw [h1]; exact hc'
          · exact hcl ch h1
      | none =>
        simp only [hc', hm, Bool.false_eq_true, if_false, Option.map_none'] at h
        by_cases hceq : c = ':'
        · simp only [hceq, if_true, matchSpaces_eq, Option.map_eq_some', Prod.mk.injEq] at h
          obtain ⟨d, hd, hcode, hdd⟩ := h
          subst hdd
          obtain ⟨hdeq, hdl⟩ := matchDescription_eq_some hd
          refine ⟨cs.takeWhile isWhiteSpace, ?_, ?_, ?_, ?_, ?_, ?_⟩
          · rw [← hcode, hceq, hdeq, List.takeWhile_append_dropWhile]; rfl
          · intro ch hch
            exact (List.mem_takeWhile_imp hch)
          · rw [← hcode]; simp
          · rw [hdeq]; exact hdl
          · intro ch hch
            rw [hdeq] at hch
            cases hdw : cs.dropWhile isWhiteSpace with
            | nil => rw [hdw] at hch; simp at hch
            | cons x xs =>
              rw [hdw] at hch
              simp only [List.head?_cons, Option.some.injEq] at hch
              have := List.head_dropWhile_not isWhiteSpace cs (by rw [hdw]; simp)
              simp only [hdw, List.head_cons] at this
              rw [← hch]
              simpa using this
          · intro hwl hmem
            have hcsl : ∀ ch ∈ cs, isLineTerminator ch = false := by
              intro ch hch
              rw [← List.takeWhile_append_dropWhile isWhiteSpace cs] at hch
              rcases List.mem_append.mp hch with h1 | h1
              · exact hwl ch h1
              · exact hdl ch h1
            have hcolon : ':' ∈ cs := by
              rw [hdeq] at hmem
              exact (List.dropWhile_suffix _).subset hmem
            have := matchCode_isSome_of_colon cs hcsl hcolon
            rw [hm] at this
            exact absurd this (by simp)
        · simp [hceq] at h

/-- The pattern applied to `code ++ ": " ++ description`. -/
theorem matchCode_round_trip (code description : List Char)
    (hcode : ∀ ch ∈ code, ch ≠ ':' ∧ isLineTerminator ch = false)
    (hdesc : ∀ ch ∈ description, ch ≠ ':' ∧ isLineTerminator ch = false)
    (hws : ∀ ch, description.head? = some ch → isWhiteSpace ch = false) :
    matchCode (code ++ ':' :: ' ' :: description) = some (code, description) := by
  induction code with
  | nil =>
    have hnone : matchCode (' ' :: description) = none := by
      apply matchCode_none_of_no_colon
      intro ch hch
      rcases List.mem_cons.mp hch with h | h
      · rw [h]; decide
      · exact (hdesc ch h).1
    have hdrop : (' ' :: description).dropWhile isWhiteSpace = description := by
      rw [List.dropWhile_cons_of_pos (by decide)]
      cases description with
      | nil => rfl
      | cons x xs =>
        rw [List.dropWhile_cons_of_neg]
        simp [hws x rfl]
    have hd : matchDescription description = some description :=
      matchDescription_of_noLT _ (fun ch hch => (hdesc ch hch).2)
    have hcolon : isLineTerminator ':' = false := by decide
    simp only [List.nil_append]
    unfold matchCode
    simp [hnone, hcolon, matchSpaces_eq, hdrop, hd]
  | cons c cs ih =>
    have hc := hcode c (List.mem_cons_self _ _)
    have ih' := ih (fun ch hch => hcode ch (List.mem_cons_of_mem _ hch))
    simp only [List.cons_append]
    unfold matchCode
    simp [hc.2, ih']

/-! ## Auxiliary facts about `parseString` -/

theorem titleMatch_round_trip (code description : String)
    (hcode : ∀ ch ∈ code.data, ch ≠ ':' ∧ isLineTerminator ch = false)
    (hdesc : ∀ ch ∈ description.data, ch ≠ ':' ∧ isLineTerminator ch = false)
    (hws : ∀ ch, description.data.head? = some ch → isWhiteSpace ch = false) :
    titleMatch (code ++ ": " ++ description) = some (code, description) := by
  unfold titleMatch
  have hdata : (code ++ ": " ++ description).data =
      code.data ++ ':' :: ' ' :: description.data := by
    simp [String.data_append]
  rw [hdata, matchCode_round_trip code.data description.data hcode hdesc hws]
  rfl

theorem parseTokens_append (st : ParseState) (pre post : List Token) :
    parseTokens st (pre ++ post) = parseTokens (parseTokens st pre) post := by
  unfold parseTokens
  rw [List.foldl_append]

/-- A top-level heading `o`, `i`, `c` sets the title fields from the content of
`i` when it matches, whatever the state before. -/
theorem parseTokens_title (st : ParseState) (o i c : Token) (code description : String)
    (ho : o.type = "heading_open" ∧ o.tag = "h1") (hi : i.type = "inline")
    (hc : c.type = "heading_close")
    (hm : titleMatch i.content = some (code, description)) :
    (parseTokens st [o, i, c]).titleErrorCode = code ∧
      (parseTokens st [o, i, c]).titleErrorDescription = description := by
  simp [parseTokens, parseToken, ho.1, ho.2, hi, hc, hm]

/-- Tokens other than `heading_close` leave the title fields alone. -/
theorem parseTokens_no_close (st : ParseState) (tokens : List Token)
    (h : ∀ t ∈ tokens, t.type ≠ "heading_close") :
    (parseTokens st tokens).titleErrorCode = st.titleErrorCode ∧
      (parseTokens st tokens).titleErrorDescription = st.titleErrorDescription := by
  induction tokens generalizing st with
  | nil => exact ⟨rfl, rfl⟩
  | cons t ts ih =>
    have ht : t.type ≠ "heading_close" := h t (List.mem_cons_self _ _)
    have hts := ih (parseToken st t) (fun u hu => h u (List.mem_cons_of_mem _ hu))
    have hstep : (parseToken st t).titleErrorCode = st.titleErrorCode ∧
        (parseToken st t).titleErrorDescription = st.titleErrorDescription := by
      unfold parseToken
      simp only [ht, if_false]
      split
      · split <;> exact ⟨rfl, rfl⟩
      · split
        · exact ⟨rfl, rfl⟩
        · split
          · split <;> exact ⟨rfl, rfl⟩
          · exact ⟨rfl, rfl⟩
    change (parseTokens (parseToken st t) ts).titleErrorCode = _ ∧
      (parseTokens (parseToken st t) ts).titleErrorDescription = _
    rw [hts.1, hts.2]
    exact hstep

/-- Without a `heading_open` of tag `h1` the loop never enters the title. -/
theorem parseTokens_no_h1 (st : ParseState) (tokens : List Token)
    (hst : st.inTitle = false)
    (h : ∀ t ∈ tokens, ¬ (t.type = "heading_open" ∧ t.tag = "h1")) :
    (parseTokens st tokens).titleErrorCode = st.titleErrorCode ∧
      (parseTokens st tokens).titleErrorDescription = st.titleErrorDescription ∧
      (parseTokens st tokens).inTitle = false := by
  induction tokens generalizing st with
  | nil => exact ⟨rfl, rfl, hst⟩
  | cons t ts ih =>
    have ht := h t (List.mem_cons_self _ _)
    have hstep : (parseToken st t).titleErrorCode = st.titleErrorCode ∧
        (parseToken st t).titleErrorDescription = st.titleErrorDescription ∧
        (parseToken st t).inTitle = false := by
      unfold parseToken
      by_cases h1 : t.type = "heading_open"
      · have h2 : t.tag ≠ "h1" := fun h2 => ht ⟨h1, h2⟩
        simp [h1, h2, hst]
      · simp only [h1, if_false, hst, Bool.false_eq_true]
        split_ifs <;> exact ⟨rfl, rfl, by simp [hst]⟩
    have hts := ih (parseToken st t) hstep.2.2 (fun u hu => h u (List.mem_cons_of_mem _ hu))
    change (parseTokens (parseToken st t) ts).titleErrorCode = _ ∧
      (parseTokens (parseToken st t) ts).titleErrorDescription = _ ∧
      (parseTokens (parseToken st t) ts).inTitle = false
    rw [hts.1, hts.2.1]
    exact ⟨hstep.1, hstep.2.1, hts.2.2⟩

/-! ## Auxiliary facts about the validator -/

theorem checkFirstBlockDiagnostics_eq (doc : ErrorDocumentation)
    (diagnostics : List Diagnostic) (foundProblems : List String) :
    checkFirstBlockDiagnostics doc diagnostics foundProblems =
      foundProblems ++
        (diagnostics.filter (fun diag => decide (diag.code ≠ doc.titleErrorCode))).map
          (fun diag => doc.filePath ++ ": error: expected only " ++ doc.titleErrorCode ++
            " errors in first code block but found " ++ diag.code) := by
  induction diagnostics generalizing foundProblems with
  | nil => simp [checkFirstBlockDiagnostics]
  | cons diag diagnostics ih =>
    rw [checkFirstBlockDiagnostics, ih]
    by_cases h : diag.code = doc.titleErrorCode <;> simp [h, List.filter_cons]

theorem analyzeCodeBlock_process (lint : String → List Diagnostic) (doc : ErrorDocumentation)
    (i : Nat) (codeBlock : String) (st : AnalysisState) :
    (analyzeCodeBlock lint doc i codeBlock st).process =
      { parsersCreated := st.process.parsersCreated + 1
        lintCalls := st.process.lintCalls ++ [(st.process.parsersCreated, codeBlock)] } := by
  simp only [analyzeCodeBlock, LintProcess.createParserAsync, Parser.replaceText, Parser.lint,
    String.append_empty]
  split <;> split <;> rfl

theorem analyzeCodeBlock_first (lint : String → List Diagnostic) (doc : ErrorDocumentation)
    (codeBlock : String) (st : AnalysisState) :
    (analyzeCodeBlock lint doc 0 codeBlock st).foundProblems =
      st.foundProblems ++
        (if lint codeBlock = [] then
          [doc.filePath ++ ": error: expected error in first code block but found no errors"]
        else
          ((lint codeBlock).filter (fun diag => decide (diag.code ≠ doc.titleErrorCode))).map
            (fun diag => doc.filePath ++ ": error: expected only " ++ doc.titleErrorCode ++
              " errors in first code block but found " ++ diag.code)) := by
  simp only [analyzeCodeBlock, LintProcess.createParserAsync, Parser.replaceText, Parser.lint,
    String.append_empty, decide_True, if_true, List.length_eq_zero]
  by_cases h : lint codeBlock = []
  · simp [h]
  · simp [h, checkFirstBlockDiagnostics_eq]

theorem analyzeCodeBlock_later (lint : String → List Diagnostic) (doc : ErrorDocumentation)
    (i : Nat) (hi : 1 ≤ i) (codeBlock : String) (st : AnalysisState) :
    (analyzeCodeBlock lint doc i codeBlock st).foundProblems =
      st.foundProblems ++
        (if lint codeBlock = [] then []
        else [doc.filePath ++ ": error: expected no error in code block #" ++ toString (i + 1) ++
          " but found errors"]) := by
  have h0 : i ≠ 0 := by omega
  simp only [analyzeCodeBlock, LintProcess.createParserAsync, Parser.replaceText, Parser.lint,
    String.append_empty, h0, decide_False, Bool.false_eq_true, if_false, ne_eq,
    List.length_eq_zero]
  by_cases h : lint codeBlock = [] <;> simp [h]

theorem analyzeCodeBlocks_later (lint : String → List Diagnostic) (doc : ErrorDocumentation)
    (codeBlocks : List String) (i : Nat) (hi : 1 ≤ i) (st : AnalysisState) :
    (analyzeCodeBlocks lint doc i codeBlocks st).foundProblems =
      st.foundProblems ++
        (codeBlocks.enumFrom i).flatMap (fun p =>
          if lint p.2 = [] then []
          else [doc.filePath ++ ": error: expected no error in code block #" ++
            toString (p.1 + 1) ++ " but found errors"]) := by
  induction codeBlocks generalizing i st with
  | nil => simp [analyzeCodeBlocks]
  | cons codeBlock codeBlocks ih =>
    rw [analyzeCodeBlocks, ih (i + 1) (by omega), analyzeCodeBlock_later lint doc i hi]
    simp [List.enumFrom_cons, List.flatMap_cons, List.append_assoc]

theorem analyzeCodeBlocks_process (lint : String → List Diagnostic) (doc : ErrorDocumentation)
    (codeBlocks : List String) (i : Nat) (st : AnalysisState) :
    (analyzeCodeBlocks lint doc i codeBlocks st).process =
      { parsersCreated := st.process.parsersCreated + codeBlocks.length
        lintCalls := st.process.lintCalls ++
          codeBlocks.enumFrom st.process.parsersCreated } := by
  induction codeBlocks generalizing i st with
  | nil => simp [analyzeCodeBlocks]
  | cons codeBlock codeBlocks ih =>
    rw [analyzeCodeBlocks, ih, analyzeCodeBlock_process]
    simp [List.enumFrom_cons, List.append_assoc, Nat.add_assoc, Nat.add_comm 1]

/-- The problem list after `analyzeErrorDocumentationAsync`, in closed form. -/
theorem analyze_foundProblems (basename : String → String → String)
    (lint : String → List Diagnostic) (doc : ErrorDocumentation) (foundProblems : List String) :
    (analyzeErrorDocumentationAsync basename lint doc foundProblems).foundProblems =
      foundProblems ++
        ((if doc.titleErrorCode ≠ doc.filePathErrorCode basename then
            [doc.filePath ++ ": error: file name doesn't match error code in title (" ++
              doc.titleErrorCode ++ ")"]
          else []) ++
        match doc.codeBlocks with
        | [] => [doc.filePath ++ ": error: missing code blocks"]
        | codeBlock :: codeBlocks =>
          (if lint codeBlock = [] then
            [doc.filePath ++ ": error: expected error in first code block but found no errors"]
          else
            ((lint codeBlock).filter (fun diag => decide (diag.code ≠ doc.titleErrorCode))).map
              (fun diag => doc.filePath ++ ": error: expected only " ++ doc.titleErrorCode ++
                " errors in first code block but found " ++ diag.code)) ++
          (codeBlocks.enumFrom 1).flatMap (fun p =>
            if lint p.2 = [] then []
            else [doc.filePath ++ ": error: expected no error in code block #" ++
              toString (p.1 + 1) ++ " but found errors"])) := by
  unfold analyzeErrorDocumentationAsync
  cases hcb : doc.codeBlocks with
  | nil =>
    by_cases h : doc.titleErrorCode = doc.filePathErrorCode basename <;>
      simp [h, analyzeCodeBlocks]
  | cons codeBlock codeBlocks =>
    simp only [analyzeCodeBlocks]
    rw [analyzeCodeBlocks_later lint doc codeBlocks 1 (le_refl 1), analyzeCodeBlock_first]
    by_cases h : doc.titleErrorCode = doc.filePathErrorCode basename <;>
      simp [h, List.append_assoc]

theorem analyze_process (basename : String → String → String)
    (lint : String → List Diagnostic) (doc : ErrorDocumentation) (foundProblems : List String) :
    (analyzeErrorDocumentationAsync basename lint doc foundProblems).process =
      { parsersCreated := doc.codeBlocks.length, lintCalls := doc.codeBlocks.enumFrom 0 } := by
  unfold analyzeErrorDocumentationAsync
  simp [analyzeCodeBlocks_process]

theorem later_blocks_clean_iff (lint : String → List Diagnostic) (codeBlock : String)
    (codeBlocks : List String) :
    (∀ b ∈ codeBlocks, lint b = []) ↔
      ∀ (i : Nat) (b : String), 1 ≤ i → (codeBlock :: codeBlocks)[i]? = some b → lint b = [] := by
  constructor
  · intro h i b hi hb
    obtain ⟨j, rfl⟩ : ∃ j, i = j + 1 := ⟨i - 1, by omega⟩
    rw [List.getElem?_cons_succ] at hb
    exact h b (List.mem_iff_getElem?.mpr ⟨j, hb⟩)
  · intro h b hb
    obtain ⟨j, hj⟩ := List.mem_iff_getElem?.mp hb
    exact h (j + 1) b (by omega) (by rw [List.getElem?_cons_succ]; exact hj)

theorem later_problems_eq_nil_iff (lint : String → List Diagnostic) (doc : ErrorDocumentation)
    (codeBlocks : List String) (i : Nat) :
    (codeBlocks.enumFrom i).flatMap (fun p =>
        if lint p.2 = [] then []
        else [doc.filePath ++ ": error: expected no error in code block #" ++
          toString (p.1 + 1) ++ " but found errors"]) = [] ↔
      ∀ b ∈ codeBlocks, lint b = [] := by
  induction codeBlocks generalizing i with
  | nil => simp
  | cons b bs ih =>
    rw [List.enumFrom_cons, List.flatMap_cons, List.append_eq_nil, ih]
    by_cases h : lint b = [] <;> simp [h]

/-- No problem reported for a code block begins like the file-name problem. -/
theorem later_problems_not_mismatch (lint : String → List Diagnostic) (doc : ErrorDocumentation)
    (codeBlocks : List String) (i : Nat) (p : String)
    (hp : p ∈ (codeBlocks.enumFrom i).flatMap (fun p =>
        if lint p.2 = [] then []
        else [doc.filePath ++ ": error: expected no error in code block #" ++
          toString (p.1 + 1) ++ " but found errors"])) :
    ¬ ∃ tail, p = doc.filePath ++
      ": error: file name doesn't match error code in title" ++ tail := by
  rintro ⟨tail, rfl⟩
  simp only [List.mem_flatMap] at hp
  obtain ⟨q, -, hq⟩ := hp
  by_cases hl : lint q.2 = []
  · simp [hl] at hq
  · simp only [hl, if_false, List.mem_singleton] at hq
    have h2 := congrArg String.data hq
    simp [String.data_append] at h2

theorem first_problems_not_mismatch (lint : String → List Diagnostic) (doc : ErrorDocumentation)
    (codeBlock : String) (p : String)
    (hp : p ∈ (if lint codeBlock = [] then
          [doc.filePath ++ ": error: expected error in first code block but found no errors"]
        else
          ((lint codeBlock).filter (fun diag => decide (diag.code ≠ doc.titleErrorCode))).map
            (fun diag => doc.filePath ++ ": error: expected only " ++ doc.titleErrorCode ++
              " errors in first code block but found " ++ diag.code))) :
    ¬ ∃ tail, p = doc.filePath ++
      ": error: file name doesn't match error code in title" ++ tail := by
  rintro ⟨tail, rfl⟩
  by_cases hl : lint codeBlock = []
  · simp only [hl, if_true, List.mem_singleton] at hp
    have h2 := congrArg String.data hp
    simp [String.data_append] at h2
  · simp only [hl, if_false, List.mem_map] at hp
    obtain ⟨diag, -, hd⟩ := hp
    have h2 := congrArg String.data hd
    simp [String.data_append] at h2

theorem missing_not_mismatch (filePath : String) :
    ¬ ∃ tail, filePath ++ ": error: missing code blocks" = filePath ++
      ": error: file name doesn't match error code in title" ++ tail := by
  rintro ⟨tail, h⟩
  have h2 := congrArg String.data h
  simp [String.data_append] at h2

/-! ## The claims about the validator -/

/-- C1: `analyzeErrorDocumentationAsync(doc, [])` leaves the problem list empty if
and only if the title code equals the file code, there is a code block, the
engine reports at least one diagnostic for block 0 and only diagnostics whose
code is the title code, and it reports none for every block of index 1 or more. -/
theorem analyze_no_problems_iff (basename : String → String → String)
    (lint : String → List Diagnostic) (doc : ErrorDocumentation) :
    (analyzeErrorDocumentationAsync basename lint doc []).foundProblems = [] ↔
      (doc.titleErrorCode = doc.filePathErrorCode basename ∧
        doc.codeBlocks ≠ [] ∧
        (∃ codeBlock, doc.codeBlocks[0]? = some codeBlock ∧ lint codeBlock ≠ [] ∧
          ∀ diag ∈ lint codeBlock, diag.code = doc.titleErrorCode) ∧
        ∀ (i : Nat) (codeBlock : String), 1 ≤ i → doc.codeBlocks[i]? = some codeBlock →
          lint codeBlock = []) := by
  rw [analyze_foundProblems]
  cases hcb : doc.codeBlocks with
  | nil => simp
  | cons codeBlock codeBlocks =>
    rw [← later_blocks_clean_iff lint codeBlock codeBlocks]
    simp only [List.nil_append, List.append_eq_nil, later_problems_eq_nil_iff, ne_eq,
      ite_eq_right_iff, List.cons_ne_nil, imp_false, not_not, reduceCtorEq, not_false_eq_true,
      true_and, List.getElem?_cons_zero, Option.some.injEq, exists_eq_left']
    by_cases hl : lint codeBlock = []
    · simp [hl]
    · simp [hl, List.filter_eq_nil_iff]

/-- C2: the problem `{filePath}: error: file name doesn't match error code in title`
is appended exactly when the title code differs from the file code; then it is
the first problem appended and no later one begins like it; when the code
blocks meet their expectations it is the only problem appended. -/
theorem mismatch_problem_first_and_once (basename : String → String → String)
    (lint : String → List Diagnostic) (doc : ErrorDocumentation) (foundProblems : List String) :
    ∃ appended,
      (analyzeErrorDocumentationAsync basename lint doc foundProblems).foundProblems =
        foundProblems ++ appended ∧
      (doc.titleErrorCode ≠ doc.filePathErrorCode basename →
        ∃ rest, appended =
            (doc.filePath ++ ": error: file name doesn't match error code in title (" ++
              doc.titleErrorCode ++ ")") :: rest ∧
          ∀ p ∈ rest, ¬ ∃ tail, p = doc.filePath ++
            ": error: file name doesn't match error code in title" ++ tail) ∧
      (doc.titleErrorCode = doc.filePathErrorCode basename →
        ∀ p ∈ appended, ¬ ∃ tail, p = doc.filePath ++
          ": error: file name doesn't match error code in title" ++ tail) ∧
      (doc.titleErrorCode ≠ doc.filePathErrorCode basename →
        ∀ codeBlock codeBlocks, doc.codeBlocks = codeBlock :: codeBlocks →
          lint codeBlock ≠ [] → (∀ diag ∈ lint codeBlock, diag.code = doc.titleErrorCode) →
          (∀ b ∈ codeBlocks, lint b = []) →
          appended =
            [doc.filePath ++ ": error: file name doesn't match error code in title (" ++
              doc.titleErrorCode ++ ")"]) := by
  refine ⟨_, analyze_foundProblems basename lint doc foundProblems, ?_, ?_, ?_⟩
  · intro hne
    refine ⟨_, by rw [if_pos hne]; rfl, ?_⟩
    intro p hp
    cases hcb : doc.codeBlocks with
    | nil =>
      rw [hcb] at hp
      simp only [List.append_eq, List.nil_append, List.mem_singleton] at hp
      subst hp
      exact missing_not_mismatch doc.filePath
    | cons codeBlock codeBlocks =>
      rw [hcb] at hp
      simp only [List.append_eq, List.nil_append, List.mem_append] at hp
      rcases hp with hp | hp
      · exact first_problems_not_mismatch lint doc codeBlock p hp
      · exact later_problems_not_mismatch lint doc codeBlocks 1 p hp
  · intro heq p hp
    have hne : ¬ doc.titleErrorCode ≠ doc.filePathErrorCode basename := not_not.mpr heq
    rw [if_neg hne, List.nil_append] at hp
    cases hcb : doc.codeBlocks with
    | nil =>
      rw [hcb] at hp
      simp only [List.mem_singleton] at hp
      subst hp
      exact missing_not_mismatch doc.filePath
    | cons codeBlock codeBlocks =>
      rw [hcb] at hp
      simp only [List.mem_append] at hp
      rcases hp with hp | hp
      · exact first_problems_not_mismatch lint doc codeBlock p hp
      · exact later_problems_not_mismatch lint doc codeBlocks 1 p hp
  · intro hne codeBlock codeBlocks hcb hl hall hlater
    rw [if_pos hne, hcb]
    have h1 : (lint codeBlock).filter (fun diag => decide (diag.code ≠ doc.titleErrorCode)) = [] := by
      simp [List.filter_eq_nil_iff]; exact hall
    have h2 := (later_problems_eq_nil_iff lint doc codeBlocks 1).mpr hlater
    simp only [hl, if_false, h1, List.map_nil, List.nil_append, h2, List.append_nil]

/-- C2, at the file `E042.md` whose title reads `E043: ...`, the first block
yielding one `E043` diagnostic: the file-name problem is the only one. -/
theorem mismatch_problem_first_and_once_witness :
    (analyzeErrorDocumentationAsync (fun _ _ => "E042")
      (fun text => if text = "bad" then [{ code := "E043" }] else [])
      { codeBlocks := ["bad", "good"], filePath := "E042.md", markdownTokens := [],
        titleErrorCode := "E043", titleErrorDescription := "x" } ["earlier"]).foundProblems =
      ["earlier", "E042.md: error: file name doesn't match error code in title (E043)"] := by
  obtain ⟨appended, h, -, -, h3⟩ := mismatch_problem_first_and_once (fun _ _ => "E042")
      (fun text => if text = "bad" then [{ code := "E043" }] else [])
      { codeBlocks := ["bad", "good"], filePath := "E042.md", markdownTokens := [],
        titleErrorCode := "E043", titleErrorDescription := "x" } ["earlier"]
  rw [h, h3 (by decide) "bad" ["good"] rfl (by decide) (by decide) (by decide)]
  decide

/-- C3: for a document with at least one code block, the problems appended for
block 0 stand between the file-name problem (if any) and the problems of the
later blocks, and they are: the one problem `expected error in first code block
but found no errors` when the engine reports nothing for block 0; otherwise one
problem `expected only {titleErrorCode} errors in first code block but found
{diag.code}` for each reported diagnostic whose code differs from the title
code, in the order reported, and none for the others. -/
theorem first_code_block_problems (basename : String → String → String)
    (lint : String → List Diagnostic) (doc : ErrorDocumentation) (foundProblems : List String)
    (codeBlock : String) (codeBlocks : List String)
    (hcb : doc.codeBlocks = codeBlock :: codeBlocks) :
    (∀ st : AnalysisState,
      (analyzeCodeBlock lint doc 0 codeBlock st).foundProblems =
        st.foundProblems ++
          (if lint codeBlock = [] then
            [doc.filePath ++ ": error: expected error in first code block but found no errors"]
          else
            ((lint codeBlock).filter (fun diag => decide (diag.code ≠ doc.titleErrorCode))).map
              (fun diag => doc.filePath ++ ": error: expected only " ++ doc.titleErrorCode ++
                " errors in first code block but found " ++ diag.code))) ∧
    (analyzeErrorDocumentationAsync basename lint doc foundProblems).foundProblems =
      foundProblems ++
        (if doc.titleErrorCode ≠ doc.filePathErrorCode basename then
            [doc.filePath ++ ": error: file name doesn't match error code in title (" ++
              doc.titleErrorCode ++ ")"]
          else []) ++
        (if lint codeBlock = [] then
          [doc.filePath ++ ": error: expected error in first code block but found no errors"]
        else
          ((lint codeBlock).filter (fun diag => decide (diag.code ≠ doc.titleErrorCode))).map
            (fun diag => doc.filePath ++ ": error: expected only " ++ doc.titleErrorCode ++
              " errors in first code block but found " ++ diag.code)) ++
        (analyzeCodeBlocks lint doc 1 codeBlocks
          { foundProblems := [], process := {} }).foundProblems := by
  refine ⟨fun st => analyzeCodeBlock_first lint doc codeBlock st, ?_⟩
  rw [analyze_foundProblems, hcb, analyzeCodeBlocks_later lint doc codeBlocks 1 (le_refl 1)]
  simp only [List.nil_append, List.append_assoc]

/-- C3, at a document whose first block yields `E042`, `E001`, `E042`, `E002`
under the title code `E042`: one problem for `E001`, then one for `E002`. -/
theorem first_code_block_problems_witness :
    (analyzeErrorDocumentationAsync (fun _ _ => "E042")
      (fun text => if text = "bad" then
        [{ code := "E042" }, { code := "E001" }, { code := "E042" }, { code := "E002" }] else [])
      { codeBlocks := ["bad", "good"], filePath := "E042.md", markdownTokens := [],
        titleErrorCode := "E042", titleErrorDescription := "x" } []).foundProblems =
      ["E042.md: error: expected only E042 errors in first code block but found E001",
       "E042.md: error: expected only E042 errors in first code block but found E002"] := by
  rw [(first_code_block_problems (fun _ _ => "E042")
      (fun text => if text = "bad" then
        [{ code := "E042" }, { code := "E001" }, { code := "E042" }, { code := "E002" }] else [])
      { codeBlocks := ["bad", "good"], filePath := "E042.md", markdownTokens := [],
        titleErrorCode := "E042", titleErrorDescription := "x" } [] "bad" ["good"] rfl).2]
  decide

/-- C4: for every block index `i` of 1 or more, the loop body appends exactly
one problem `expected no error in code block #{i+1} but found errors` when the
engine reports one or more diagnostics for the block, whatever they are, and
nothing when it reports none; the problems of the later blocks follow those of
block 0 in index order. -/
theorem later_code_block_problems (basename : String → String → String)
    (lint : String → List Diagnostic) (doc : ErrorDocumentation) (foundProblems : List String)
    (codeBlock : String) (codeBlocks : List String)
    (hcb : doc.codeBlocks = codeBlock :: codeBlocks) :
    (∀ (i : Nat) (b : String) (st : AnalysisState), 1 ≤ i →
      (analyzeCodeBlock lint doc i b st).foundProblems =
        st.foundProblems ++
          (if lint b = [] then []
          else [doc.filePath ++ ": error: expected no error in code block #" ++
            toString (i + 1) ++ " but found errors"])) ∧
    (analyzeErrorDocumentationAsync basename lint doc foundProblems).foundProblems =
      foundProblems ++
        (if doc.titleErrorCode ≠ doc.filePathErrorCode basename then
            [doc.filePath ++ ": error: file name doesn't match error code in title (" ++
              doc.titleErrorCode ++ ")"]
          else []) ++
        (analyzeCodeBlock lint doc 0 codeBlock
          { foundProblems := [], process := {} }).foundProblems ++
        (codeBlocks.enumFrom 1).flatMap (fun p =>
          if lint p.2 = [] then []
          else [doc.filePath ++ ": error: expected no error in code block #" ++
            toString (p.1 + 1) ++ " but found errors"]) := by
  refine ⟨fun i b st hi => analyzeCodeBlock_later lint doc i hi b st, ?_⟩
  rw [analyze_foundProblems, hcb, analyzeCodeBlock_first]
  simp only [List.nil_append, List.append_assoc]

/-- C4, at a document whose blocks 1 and 3 yield two diagnostics each and whose
block 2 yields none: one problem for block #2 and one for block #4. -/
theorem later_code_block_problems_witness :
    (analyzeErrorDocumentationAsync (fun _ _ => "E042")
      (fun text => if text = "bad" then [{ code := "E042" }]
        else if text = "worse" then [{ code := "E042" }, { code := "E007" }] else [])
      { codeBlocks := ["bad", "worse", "good", "worse"], filePath := "E042.md",
        markdownTokens := [], titleErrorCode := "E042",
        titleErrorDescription := "x" } []).foundProblems =
      ["E042.md: error: expected no error in code block #2 but found errors",
       "E042.md: error: expected no error in code block #4 but found errors"] := by
  rw [(later_code_block_problems (fun _ _ => "E042")
      (fun text => if text = "bad" then [{ code := "E042" }]
        else if text = "worse" then [{ code := "E042" }, { code := "E007" }] else [])
      { codeBlocks := ["bad", "worse", "good", "worse"], filePath := "E042.md",
        markdownTokens := [], titleErrorCode := "E042",
        titleErrorDescription := "x" } [] "bad" ["worse", "good", "worse"] rfl).2]
  decide

/-- C5: for a document without code blocks whose title code equals its file
code, exactly the problem `{filePath}: error: missing code blocks` is appended,
no parser session is created and `lint` is never called. -/
theorem missing_code_blocks_only (basename : String → String → String)
    (lint : String → List Diagnostic) (doc : ErrorDocumentation) (foundProblems : List String)
    (hcb : doc.codeBlocks = [])
    (htitle : doc.titleErrorCode = doc.filePathErrorCode basename) :
    analyzeErrorDocumentationAsync basename lint doc foundProblems =
      { foundProblems := foundProblems ++ [doc.filePath ++ ": error: missing code blocks"]
        process := { parsersCreated := 0, lintCalls := [] } } := by
  unfold analyzeErrorDocumentationAsync
  simp [hcb, htitle, analyzeCodeBlocks]

/-- C5, at the document `E042.md` with title code `E042` and no code block. -/
theorem missing_code_blocks_only_witness :
    analyzeErrorDocumentationAsync (fun _ _ => "E042") (fun _ => [{ code := "E042" }])
      { codeBlocks := [], filePath := "E042.md", markdownTokens := [],
        titleErrorCode := "E042", titleErrorDescription := "x" } ["earlier"] =
      { foundProblems := ["earlier", "E042.md: error: missing code blocks"]
        process := { parsersCreated := 0, lintCalls := [] } } :=
  missing_code_blocks_only (fun _ _ => "E042") (fun _ => [{ code := "E042" }])
    { codeBlocks := [], filePath := "E042.md", markdownTokens := [],
      titleErrorCode := "E042", titleErrorDescription := "x" } ["earlier"] rfl rfl

theorem analyzeDocuments_foldl (basename : String → String → String)
    (lint : String → List Diagnostic) (documents : List ErrorDocumentation)
    (foundProblems : List String) :
    documents.foldl
      (fun foundProblems doc =>
        (analyzeErrorDocumentationAsync basename lint doc foundProblems).foundProblems)
      foundProblems =
    foundProblems ++ documents.flatMap (fun doc =>
      (analyzeErrorDocumentationAsync basename lint doc []).foundProblems) := by
  induction documents generalizing foundProblems with
  | nil => simp
  | cons doc documents ih =>
    rw [List.foldl_cons, ih, List.flatMap_cons, analyze_foundProblems basename lint doc
      foundProblems, analyze_foundProblems basename lint doc []]
    simp only [List.nil_append, List.append_assoc]

/-- C6: validation never short-circuits.  Whatever the problem list holds, every
code block is linted exactly once, in index order, each in a session of its own
that holds exactly that block (sessions 0, 1, ... in turn); and the validation
loop yields the concatenation, in corpus order, of each document's own problems. -/
theorem validation_never_short_circuits (basename : String → String → String)
    (lint : String → List Diagnostic) :
    (∀ (doc : ErrorDocumentation) (foundProblems : List String),
      let process := (analyzeErrorDocumentationAsync basename lint doc foundProblems).process
      process.lintCalls.map Prod.snd = doc.codeBlocks ∧
      process.lintCalls.map Prod.fst = List.range doc.codeBlocks.length ∧
      process.parsersCreated = doc.codeBlocks.length) ∧
    (∀ documents : List ErrorDocumentation,
      analyzeDocuments basename lint documents =
        documents.flatMap (fun doc =>
          (analyzeErrorDocumentationAsync basename lint doc []).foundProblems)) := by
  constructor
  · intro doc foundProblems
    simp only [analyze_process, List.enumFrom_map_snd, List.enumFrom_map_fst,
      List.range_eq_range', and_self]
  · intro documents
    unfold analyzeDocuments
    rw [analyzeDocuments_foldl, List.nil_append]

/-! ## The claims about `parseString` -/

/-- C7: title extraction round trip.  For a code `code` and a description
`description` without colon and line terminator, `description` not starting with
white space, a document whose only heading is a top-level heading with inline
content `code + ": " + description` has exactly these title fields. -/
theorem title_round_trip (parse : String → List Token) (filePath markdown : String)
    (pre post : List Token) (o i c : Token) (code description : String)
    (hparse : parse markdown = pre ++ [o, i, c] ++ post)
    (ho : o.type = "heading_open" ∧ o.tag = "h1")
    (hi : i.type = "inline" ∧ i.content = code ++ ": " ++ description)
    (hc : c.type = "heading_close")
    (hother : ∀ t ∈ pre ++ post, t.type ≠ "heading_open" ∧ t.type ≠ "heading_close")
    (hcode : ∀ ch ∈ code.data, ch ≠ ':' ∧ isLineTerminator ch = false)
    (hdesc : ∀ ch ∈ description.data, ch ≠ ':' ∧ isLineTerminator ch = false)
    (hws : ∀ ch, description.data.head? = some ch → isWhiteSpace ch = false) :
    (parseString parse filePath markdown).titleErrorCode = code ∧
      (parseString parse filePath markdown).titleErrorDescription = description := by
  have hm : titleMatch i.content = some (code, description) := by
    rw [hi.2]
    exact titleMatch_round_trip code description hcode hdesc hws
  have htitle := parseTokens_title (parseTokens {} pre) o i c code description ho hi.1 hc hm
  have hrest := parseTokens_no_close (parseTokens (parseTokens {} pre) [o, i, c]) post
    (fun t ht => (hother t (List.mem_append_right pre ht)).2)
  simp only [parseString, hparse, parseTokens_append]
  rw [hrest.1, hrest.2]
  exact htitle

/-- C7, at the heading `E042: Something bad` followed by a paragraph. -/
theorem title_round_trip_witness :
    (parseString
      (fun _ => [{ type := "heading_open", tag := "h1" },
        { type := "inline", content := "E042: Something bad" },
        { type := "heading_close", tag := "h1" },
        { type := "paragraph_open", tag := "p" },
        { type := "inline", content := "Some text: here" },
        { type := "paragraph_close", tag := "p" }])
      "docs/errors/E042.md" "# E042: Something bad\n\nSome text: here\n").titleErrorCode =
        "E042" ∧
    (parseString
      (fun _ => [{ type := "heading_open", tag := "h1" },
        { type := "inline", content := "E042: Something bad" },
        { type := "heading_close", tag := "h1" },
        { type := "paragraph_open", tag := "p" },
        { type := "inline", content := "Some text: here" },
        { type := "paragraph_close", tag := "p" }])
      "docs/errors/E042.md" "# E042: Something bad\n\nSome text: here\n").titleErrorDescription =
        "Something bad" :=
  title_round_trip _ "docs/errors/E042.md" "# E042: Something bad\n\nSome text: here\n"
    []
    [{ type := "paragraph_open", tag := "p" },
      { type := "inline", content := "Some text: here" },
      { type := "paragraph_close", tag := "p" }]
    { type := "heading_open", tag := "h1" }
    { type := "inline", content := "E042: Something bad" }
    { type := "heading_close", tag := "h1" }
    "E042" "Something bad" rfl (by decide) (by decide) (by decide) (by decide) (by decide)
    (by decide) (by decide)

/-- C8 fails on the code: the heading `E042: foo: bar` of the file `E042.md`
matches the title pattern and the text up to its first colon is `E042`, yet
`titleErrorCode` is `E042: foo` (the greedy `.*` runs up to the last colon) and
`titleErrorDescription` is `bar`; the validator then reports a file-name problem
and, for a first block that yields the diagnostic `E042`, an unexpected error. -/
theorem title_code_not_up_to_first_colon :
    (titleMatch "E042: foo: bar").isSome = true ∧
    String.mk ("E042: foo: bar".data.takeWhile (fun ch => ch != ':')) = "E042" ∧
    (parseString
      (fun _ => [{ type := "heading_open", tag := "h1" },
        { type := "inline", content := "E042: foo: bar" },
        { type := "heading_close", tag := "h1" },
        { type := "fence", tag := "code", content := "bad", info := "js" }])
      "docs/errors/E042.md" "# E042: foo: bar\n").titleErrorCode ≠ "E042" ∧
    (parseString
      (fun _ => [{ type := "heading_open", tag := "h1" },
        { type := "inline", content := "E042: foo: bar" },
        { type := "heading_close", tag := "h1" },
        { type := "fence", tag := "code", content := "bad", info := "js" }])
      "docs/errors/E042.md" "# E042: foo: bar\n").titleErrorCode = "E042: foo" ∧
    (parseString
      (fun _ => [{ type := "heading_open", tag := "h1" },
        { type := "inline", content := "E042: foo: bar" },
        { type := "heading_close", tag := "h1" },
        { type := "fence", tag := "code", content := "bad", info := "js" }])
      "docs/errors/E042.md" "# E042: foo: bar\n").titleErrorDescription = "bar" ∧
    (analyzeErrorDocumentationAsync (fun _ _ => "E042")
      (fun text => if text = "bad" then [{ code := "E042" }] else [])
      (parseString
        (fun _ => [{ type := "heading_open", tag := "h1" },
          { type := "inline", content := "E042: foo: bar" },
          { type := "heading_close", tag := "h1" },
          { type := "fence", tag := "code", content := "bad", info := "js" }])
        "docs/errors/E042.md" "# E042: foo: bar\n") []).foundProblems =
      ["docs/errors/E042.md: error: file name doesn't match error code in title (E042: foo)",
       "docs/errors/E042.md: error: expected only E042: foo errors in first code block " ++
         "but found E042"] := by
  decide

/-- C9 fails on the code: in `# Foo` followed by `## E001: bar` no top-level
heading matches the title pattern, yet the title fields are not empty, because
`inTitle` still holds when the second heading closes. -/
theorem title_set_without_matching_h1 :
    titleMatch "Foo" = none ∧
    (parseString
      (fun _ => [{ type := "heading_open", tag := "h1" },
        { type := "inline", content := "Foo" },
        { type := "heading_close", tag := "h1" },
        { type := "heading_open", tag := "h2" },
        { type := "inline", content := "E001: bar" },
        { type := "heading_close", tag := "h2" }])
      "docs/errors/E001.md" "# Foo\n\n## E001: bar\n").titleErrorCode = "FooE001" ∧
    (parseString
      (fun _ => [{ type := "heading_open", tag := "h1" },
        { type := "inline", content := "Foo" },
        { type := "heading_close", tag := "h1" },
        { type := "heading_open", tag := "h2" },
        { type := "inline", content := "E001: bar" },
        { type := "heading_close", tag := "h2" }])
      "docs/errors/E001.md" "# Foo\n\n## E001: bar\n").titleErrorDescription = "bar" := by
  decide

/-- C10: a token stream without a `heading_open` of tag `h1` gives empty title
fields, and the validator then appends the file-name problem whenever the file
code is not the empty string. -/
theorem no_h1_gives_empty_title_and_mismatch (basename : String → String → String)
    (lint : String → List Diagnostic) (parse : String → List Token)
    (filePath markdown : String) (foundProblems : List String)
    (h : ∀ t ∈ parse markdown, ¬ (t.type = "heading_open" ∧ t.tag = "h1")) :
    (parseString parse filePath markdown).titleErrorCode = "" ∧
    (parseString parse filePath markdown).titleErrorDescription = "" ∧
    ((parseString parse filePath markdown).filePathErrorCode basename ≠ "" →
      ∃ rest,
        (analyzeErrorDocumentationAsync basename lint (parseString parse filePath markdown)
          foundProblems).foundProblems =
        foundProblems ++
          (filePath ++ ": error: file name doesn't match error code in title ()") :: rest) := by
  have hp := parseTokens_no_h1 {} (parse markdown) rfl h
  have h1 : (parseString parse filePath markdown).titleErrorCode = "" := hp.1
  have h2 : (parseString parse filePath markdown).titleErrorDescription = "" := hp.2.1
  refine ⟨h1, h2, ?_⟩
  intro hne
  have hne' : (parseString parse filePath markdown).titleErrorCode ≠
      (parseString parse filePath markdown).filePathErrorCode basename := by
    rw [h1]; exact fun heq => hne heq.symm
  have hmsg : (parseString parse filePath markdown).filePath ++
      ": error: file name doesn't match error code in title (" ++ "" ++ ")" =
      filePath ++ ": error: file name doesn't match error code in title ()" := by
    show filePath ++ _ ++ "" ++ ")" = _
    rw [String.append_empty, String.append_assoc]
    rfl
  rw [analyze_foundProblems, if_pos hne', h1, hmsg]
  exact ⟨_, rfl⟩

/-- C10, at a document that holds one paragraph and one code block. -/
theorem no_h1_gives_empty_title_and_mismatch_witness :
    ∃ rest,
      (analyzeErrorDocumentationAsync (fun _ _ => "E042") (fun _ => [{ code := "E042" }])
        (parseString
          (fun _ => [{ type := "paragraph_open", tag := "p" },
            { type := "inline", content := "E042: text" },
            { type := "paragraph_close", tag := "p" },
            { type := "fence", tag := "code", content := "x = 1;\n", info := "js" }])
          "docs/errors/E042.md" "E042: text\n") []).foundProblems =
      [] ++ ("docs/errors/E042.md" ++
        ": error: file name doesn't match error code in title ()") :: rest :=
  (no_h1_gives_empty_title_and_mismatch (fun _ _ => "E042") (fun _ => [{ code := "E042" }])
    (fun _ => [{ type := "paragraph_open", tag := "p" },
      { type := "inline", content := "E042: text" },
      { type := "paragraph_close", tag := "p" },
      { type := "fence", tag := "code", content := "x = 1;\n", info := "js" }])
    "docs/errors/E042.md" "E042: text\n" [] (by decide)).2.2 (by decide)

/-! ## Code blocks of a parsed document -/

theorem parseToken_codeBlocks (st : ParseState) (token : Token) :
    (parseToken st token).codeBlocks =
      st.codeBlocks ++
        (if token.type = "code_block" ∨ token.type = "fence" then [token.content] else []) := by
  unfold parseToken
  by_cases h1 : token.type = "heading_open"
  · have h3 : ¬ (token.type = "code_block" ∨ token.type = "fence") := by
      rw [h1]; decide
    rw [if_pos h1, if_neg h3]
    split <;> simp
  · by_cases h2 : token.type = "heading_close"
    · have h3 : ¬ (token.type = "code_block" ∨ token.type = "fence") := by
        rw [h2]; decide
      rw [if_neg h1, if_pos h2, if_neg h3]
      split
      · split <;> simp
      · simp
    · by_cases h3 : token.type = "code_block" ∨ token.type = "fence"
      · rw [if_neg h1, if_neg h2, if_pos h3, if_pos h3]
      · rw [if_neg h1, if_neg h2, if_neg h3, if_neg h3]
        split
        · split <;> simp
        · simp

theorem parseTokens_codeBlocks (st : ParseState) (tokens : List Token) :
    (parseTokens st tokens).codeBlocks =
      st.codeBlocks ++
        (tokens.filter (fun token =>
          decide (token.type = "code_block" ∨ token.type = "fence"))).map
          (fun token => token.content) := by
  induction tokens generalizing st with
  | nil => simp [parseTokens]
  | cons token tokens ih =>
    change (parseTokens (parseToken st token) tokens).codeBlocks = _
    rw [ih, parseToken_codeBlocks]
    by_cases h : token.type = "code_block" ∨ token.type = "fence"
    · simp [h, List.filter_cons]
    · simp [h, List.filter_cons]

/-- C11: the `codeBlocks` of the parsed document are the `content` fields of
all tokens of type `code_block` or `fence`, in token order, whatever headings
the stream holds and wherever the blocks stand. -/
theorem codeBlocks_are_all_code_tokens (parse : String → List Token)
    (filePath markdown : String) :
    (parseString parse filePath markdown).codeBlocks =
      ((parse markdown).filter (fun token =>
        decide (token.type = "code_block" ∨ token.type = "fence"))).map
        (fun token => token.content) := by
  have h := parseTokens_codeBlocks {} (parse markdown)
  simpa [parseString] using h

/-! ## Auxiliary facts about rendering -/

theorem renderFrom_append (escape : String → String)
    (defaultRender : List Token → Nat → String) (doc : ErrorDocumentation)
    (tokens : List Token) (i : Nat) (pre post : List Token) (result : String) :
    renderFrom escape defaultRender doc tokens i (pre ++ post) result =
      renderFrom escape defaultRender doc tokens (i + pre.length) post
        (renderFrom escape defaultRender doc tokens i pre result) := by
  induction pre generalizing i result with
  | nil => simp [renderFrom]
  | cons token pre ih =>
    have h : i + 1 + pre.length = i + (pre.length + 1) := by omega
    simp only [List.cons_append, renderFrom, List.length_cons, List.append_eq, ih, h]

theorem renderedText_heading_open (escape : String → String)
    (defaultRender : List Token → Nat → String) (doc : ErrorDocumentation)
    (tokens : List Token) (i : Nat) (token : Token) (h : token.type = "heading_open") :
    renderedText escape defaultRender doc tokens i token =
      appendedText (heading_open doc token) := by
  unfold renderedText
  have h1 : ¬ token.type = "inline" := by rw [h]; decide
  rw [if_neg h1, if_pos h]

theorem renderedText_heading_close (escape : String → String)
    (defaultRender : List Token → Nat → String) (doc : ErrorDocumentation)
    (tokens : List Token) (i : Nat) (token : Token) (h : token.type = "heading_close") :
    renderedText escape defaultRender doc tokens i token =
      appendedText (heading_close token) := by
  unfold renderedText
  have h1 : ¬ token.type = "inline" := by rw [h]; decide
  have h2 : ¬ token.type = "heading_open" := by rw [h]; decide
  rw [if_neg h1, if_neg h2, if_pos h]

theorem renderedText_code (escape : String → String)
    (defaultRender : List Token → Nat → String) (doc : ErrorDocumentation)
    (tokens : List Token) (i : Nat) (token : Token)
    (h : token.type = "code_block" ∨ token.type = "fence") :
    renderedText escape defaultRender doc tokens i token =
      "<figure><pre><code>" ++ escape token.content ++ "</code></pre></figure>" := by
  unfold renderedText
  rcases h with h | h
  · have h1 : ¬ token.type = "inline" := by rw [h]; decide
    have h2 : ¬ token.type = "heading_open" := by rw [h]; decide
    have h3 : ¬ token.type = "heading_close" := by rw [h]; decide
    rw [if_neg h1, if_neg h2, if_neg h3, if_pos h]
    rfl
  · have h1 : ¬ token.type = "inline" := by rw [h]; decide
    have h2 : ¬ token.type = "heading_open" := by rw [h]; decide
    have h3 : ¬ token.type = "heading_close" := by rw [h]; decide
    have h4 : ¬ token.type = "code_block" := by rw [h]; decide
    rw [if_neg h1, if_neg h2, if_neg h3, if_neg h4, if_pos h]
    rfl

/-- The replacement of one character holds none of `<`, `>`, `"`. -/
theorem escapeHtmlChar_safe (c ch : Char) (h : ch ∈ escapeHtmlChar c) :
    ch ≠ '<' ∧ ch ≠ '>' ∧ ch ≠ '"' := by
  unfold escapeHtmlChar at h
  split_ifs at h with h1 h2 h3 h4
  · simp only [List.mem_cons, List.mem_singleton, List.not_mem_nil, or_false] at h
    rcases h with h | h | h | h | h <;> (rw [h]; decide)
  · simp only [List.mem_cons, List.mem_singleton, List.not_mem_nil, or_false] at h
    rcases h with h | h | h | h <;> (rw [h]; decide)
  · simp only [List.mem_cons, List.mem_singleton, List.not_mem_nil, or_false] at h
    rcases h with h | h | h | h <;> (rw [h]; decide)
  · simp only [List.mem_cons, List.mem_singleton, List.not_mem_nil, or_false] at h
    rcases h with h | h | h | h | h | h <;> (rw [h]; decide)
  · simp only [List.mem_singleton] at h
    rw [h]
    exact ⟨h2, h3, h4⟩

theorem cons_eq_append_amp {ch : Char} {l pre post : List Char} (hch : ch ≠ '&')
    (h : ch :: l = pre ++ '&' :: post) :
    ∃ pre2, pre = ch :: pre2 ∧ l = pre2 ++ '&' :: post := by
  cases pre with
  | nil =>
    simp only [List.nil_append, List.cons.injEq] at h
    exact absurd h.1 hch
  | cons x pre2 =>
    simp only [List.cons_append, List.cons.injEq] at h
    exact ⟨pre2, by rw [h.1], h.2⟩

/-- In an escaped text every `&` starts one of the four entities. -/
theorem escaped_amp_starts_entity (l pre post : List Char)
    (h : l.flatMap escapeHtmlChar = pre ++ '&' :: post) :
    ∃ rest, post = 'a' :: 'm' :: 'p' :: ';' :: rest ∨ post = 'l' :: 't' :: ';' :: rest ∨
      post = 'g' :: 't' :: ';' :: rest ∨ post = 'q' :: 'u' :: 'o' :: 't' :: ';' :: rest := by
  induction l generalizing pre with
  | nil =>
    simp only [List.flatMap_nil] at h
    exact absurd h (by simp)
  | cons c cs ih =>
    rw [List.flatMap_cons] at h
    unfold escapeHtmlChar at h
    split_ifs at h with h1 h2 h3 h4
    · cases pre with
      | nil =>
        simp only [List.cons_append, List.nil_append, List.cons.injEq, true_and] at h
        exact ⟨_, Or.inl h.symm⟩
      | cons x pre1 =>
        simp only [List.cons_append, List.nil_append, List.cons.injEq] at h
        obtain ⟨p2, -, h⟩ := cons_eq_append_amp (by decide) h.2
        obtain ⟨p3, -, h⟩ := cons_eq_append_amp (by decide) h
        obtain ⟨p4, -, h⟩ := cons_eq_append_amp (by decide) h
        obtain ⟨p5, -, h⟩ := cons_eq_append_amp (by decide) h
        exact ih p5 h
    · cases pre with
      | nil =>
        simp only [List.cons_append, List.nil_append, List.cons.injEq, true_and] at h
        exact ⟨_, Or.inr (Or.inl h.symm)⟩
      | cons x pre1 =>
        simp only [List.cons_append, List.nil_append, List.cons.injEq] at h
        obtain ⟨p2, -, h⟩ := cons_eq_append_amp (by decide) h.2
        obtain ⟨p3, -, h⟩ := cons_eq_append_amp (by decide) h
        obtain ⟨p4, -, h⟩ := cons_eq_append_amp (by decide) h
        exact ih p4 h
    · cases pre with
      | nil =>
        simp only [List.cons_append, List.nil_append, List.cons.injEq, true_and] at h
        exact ⟨_, Or.inr (Or.inr (Or.inl h.symm))⟩
      | cons x pre1 =>
        simp only [List.cons_append, List.nil_append, List.cons.injEq] at h
        obtain ⟨p2, -, h⟩ := cons_eq_append_amp (by decide) h.2
        obtain ⟨p3, -, h⟩ := cons_eq_append_amp (by decide) h
        obtain ⟨p4, -, h⟩ := cons_eq_append_amp (by decide) h
        exact ih p4 h
    · cases pre with
      | nil =>
        simp only [List.cons_append, List.nil_append, List.cons.injEq, true_and] at h
        exact ⟨_, Or.inr (Or.inr (Or.inr h.symm))⟩
      | cons x pre1 =>
        simp only [List.cons_append, List.nil_append, List.cons.injEq] at h
        obtain ⟨p2, -, h⟩ := cons_eq_append_amp (by decide) h.2
        obtain ⟨p3, -, h⟩ := cons_eq_append_amp (by decide) h
        obtain ⟨p4, -, h⟩ := cons_eq_append_amp (by decide) h
        obtain ⟨p5, -, h⟩ := cons_eq_append_amp (by decide) h
        obtain ⟨p6, -, h⟩ := cons_eq_append_amp (by decide) h
        exact ih p6 h
    · obtain ⟨p2, -, h⟩ := cons_eq_append_amp h1 h
      exact ih p2 h

/-- For a heading whose tag is not `h1` both heading rules return `undefined`,
and the renderer appends the text `undefined`. -/
theorem renderedText_heading_not_h1 (escape : String → String)
    (defaultRender : List Token → Nat → String) (doc : ErrorDocumentation)
    (tokens : List Token) (i : Nat) (token : Token)
    (htype : token.type = "heading_open" ∨ token.type = "heading_close")
    (htag : token.tag ≠ "h1") :
    renderedText escape defaultRender doc tokens i token = "undefined" := by
  rcases htype with h | h
  · rw [renderedText_heading_open escape defaultRender doc tokens i token h]
    simp [heading_open, htag, appendedText]
  · rw [renderedText_heading_close escape defaultRender doc tokens i token h]
    simp [heading_close, htag, appendedText]

/-! ## The claims about rendering -/

/-- C12 fails on the code: in `# E001: foo` followed by `## Details`, with the
library rendering an inline token as its text, `toHTML` gives the text
`undefined` for the `heading_open` and the `heading_close` of the second heading
instead of the default `<h2>` and `</h2>`. -/
theorem non_h1_heading_renders_undefined :
    (parseString
      (fun _ => [{ type := "heading_open", tag := "h1" },
        { type := "inline", content := "E001: foo" },
        { type := "heading_close", tag := "h1" },
        { type := "heading_open", tag := "h2" },
        { type := "inline", content := "Details" },
        { type := "heading_close", tag := "h2" }])
      "docs/errors/E001.md" "# E001: foo\n\n## Details\n").toHTML escapeHtml
        (fun tokens i => match tokens[i]? with
          | some token => token.content
          | none => "") =
      "<h2><a class='self-reference' href='#E001'>E001: foo</a></h2>undefinedDetailsundefined" := by
  decide

/-- C13: for a `code_block` or `fence` token the rule returns
`<figure><pre><code>` + `escapeHtml(token.content)` + `</code></pre></figure>`,
whatever `escapeHtml` is; this is what the renderer appends, so two such tokens
with the same content render alike whatever their kind and info string; and with
the escaping of markdown-it the text between the code tags holds no `<`, `>` or
`"`, and every `&` in it starts one of the entities `&amp;`, `&lt;`, `&gt;`,
`&quot;`. -/
theorem code_rule_wraps_escaped_content (escape : String → String)
    (defaultRender : List Token → Nat → String) (doc : ErrorDocumentation)
    (tokens : List Token) (i : Nat) (token : Token)
    (h : token.type = "code_block" ∨ token.type = "fence") :
    code_block escape token =
      some ("<figure><pre><code>" ++ escape token.content ++ "</code></pre></figure>") ∧
    fence escape token =
      some ("<figure><pre><code>" ++ escape token.content ++ "</code></pre></figure>") ∧
    renderedText escape defaultRender doc tokens i token =
      "<figure><pre><code>" ++ escape token.content ++ "</code></pre></figure>" ∧
    (∀ (doc2 : ErrorDocumentation) (tokens2 : List Token) (j : Nat) (other : Token),
      (other.type = "code_block" ∨ other.type = "fence") → other.content = token.content →
      renderedText escape defaultRender doc2 tokens2 j other =
        renderedText escape defaultRender doc tokens i token) ∧
    (∀ ch ∈ (escapeHtml token.content).data, ch ≠ '<' ∧ ch ≠ '>' ∧ ch ≠ '"') ∧
    (∀ pre post : List Char, (escapeHtml token.content).data = pre ++ '&' :: post →
      ∃ rest, post = 'a' :: 'm' :: 'p' :: ';' :: rest ∨ post = 'l' :: 't' :: ';' :: rest ∨
        post = 'g' :: 't' :: ';' :: rest ∨ post = 'q' :: 'u' :: 'o' :: 't' :: ';' :: rest) := by
  refine ⟨rfl, rfl, renderedText_code escape defaultRender doc tokens i token h, ?_, ?_, ?_⟩
  · intro doc2 tokens2 j other hother hcontent
    rw [renderedText_code escape defaultRender doc2 tokens2 j other hother,
      renderedText_code escape defaultRender doc tokens i token h, hcontent]
  · intro ch hch
    simp only [escapeHtml, List.mem_flatMap] at hch
    obtain ⟨c, -, hc⟩ := hch
    exact escapeHtmlChar_safe c ch hc
  · intro pre post hsplit
    exact escaped_amp_starts_entity token.content.data pre post hsplit

/-- C13, at the fence `a < b && "c"` with info string `js`. -/
theorem code_rule_wraps_escaped_content_witness :
    renderedText escapeHtml (fun _ _ => "") 
      { codeBlocks := ["a < b && \"c\""], filePath := "docs/errors/E001.md",
        markdownTokens := [], titleErrorCode := "E001", titleErrorDescription := "x" }
      [] 0 { type := "fence", tag := "code", content := "a < b && \"c\"", info := "js" } =
      "<figure><pre><code>" ++
        escapeHtml (Token.content
          { type := "fence", tag := "code", content := "a < b && \"c\"", info := "js" }) ++
        "</code></pre></figure>" :=
  (code_rule_wraps_escaped_content escapeHtml (fun _ _ => "")
    { codeBlocks := ["a < b && \"c\""], filePath := "docs/errors/E001.md",
      markdownTokens := [], titleErrorCode := "E001", titleErrorDescription := "x" }
    [] 0 { type := "fence", tag := "code", content := "a < b && \"c\"", info := "js" }
    (by decide)).2.2.1

/-- C14 as stated fails: for the title code `E042` the rule `heading_open`
returns the anchor with single-quoted attribute values, not with double-quoted
ones. -/
theorem h1_anchor_not_double_quoted :
    heading_open
      { codeBlocks := [], filePath := "docs/errors/E042.md", markdownTokens := [],
        titleErrorCode := "E042", titleErrorDescription := "x" }
      { type := "heading_open", tag := "h1" } =
        some "<h2><a class='self-reference' href='#E042'>" ∧
    heading_open
      { codeBlocks := [], filePath := "docs/errors/E042.md", markdownTokens := [],
        titleErrorCode := "E042", titleErrorDescription := "x" }
      { type := "heading_open", tag := "h1" } ≠
        some "<h2><a class=\"self-reference\" href=\"#E042\">" := by
  decide

/-- C14, amended: for a top-level heading the rule `heading_open` returns
`<h2><a class='self-reference' href='#{titleErrorCode}'>` (single-quoted
attribute values) with the document's own title code, the rule `heading_close`
returns `</a></h2>`, and `toHTML` appends exactly these around the heading's
inline text. -/
theorem h1_heading_renders_self_reference (escape : String → String)
    (defaultRender : List Token → Nat → String) (doc : ErrorDocumentation)
    (pre post : List Token) (o i c : Token)
    (hdoc : doc.markdownTokens = pre ++ [o, i, c] ++ post)
    (ho : o.type = "heading_open" ∧ o.tag = "h1") (hi : i.type = "inline")
    (hc : c.type = "heading_close" ∧ c.tag = "h1") :
    heading_open doc o =
      some ("<h2><a class='self-reference' href='#" ++ doc.titleErrorCode ++ "'>") ∧
    heading_close c = some "</a></h2>" ∧
    doc.toHTML escape defaultRender =
      renderFrom escape defaultRender doc doc.markdownTokens (pre.length + 3) post
        (renderFrom escape defaultRender doc doc.markdownTokens 0 pre "" ++
          ("<h2><a class='self-reference' href='#" ++ doc.titleErrorCode ++ "'>") ++
          defaultRender doc.markdownTokens (pre.length + 1) ++ "</a></h2>") := by
  have hopen : heading_open doc o =
      some ("<h2><a class='self-reference' href='#" ++ doc.titleErrorCode ++ "'>") := by
    simp [heading_open, ho.2]
  have hclose : heading_close c = some "</a></h2>" := by
    simp [heading_close, hc.2]
  refine ⟨hopen, hclose, ?_⟩
  unfold ErrorDocumentation.toHTML
  generalize hts : doc.markdownTokens = tokens at hdoc ⊢
  have hi' : renderedText escape defaultRender doc tokens (pre.length + 1) i =
      defaultRender tokens (pre.length + 1) := by
    unfold renderedText
    rw [if_pos hi]
  have key : ∀ rest : List Token, rest = pre ++ [o, i, c] ++ post →
      renderFrom escape defaultRender doc tokens 0 rest "" =
        renderFrom escape defaultRender doc tokens (pre.length + 3) post
          (renderFrom escape defaultRender doc tokens 0 pre "" ++
            ("<h2><a class='self-reference' href='#" ++ doc.titleErrorCode ++ "'>") ++
            defaultRender tokens (pre.length + 1) ++ "</a></h2>") := by
    intro rest hrest
    rw [hrest, renderFrom_append, renderFrom_append]
    simp only [renderFrom, Nat.zero_add, List.length_append, List.length_cons,
      List.length_nil,
      renderedText_heading_open escape defaultRender doc tokens _ o ho.1,
      renderedText_heading_close escape defaultRender doc tokens _ c hc.1, hopen, hclose,
      appendedText, hi']
  exact key tokens hdoc

/-- C14 amended, at the document `# E042: Something bad`. -/
theorem h1_heading_renders_self_reference_witness :
    ErrorDocumentation.toHTML escapeHtml
      (fun tokens i => match tokens[i]? with
        | some token => token.content
        | none => "")
      { codeBlocks := [], filePath := "docs/errors/E042.md",
        markdownTokens := [{ type := "heading_open", tag := "h1" },
          { type := "inline", content := "E042: Something bad" },
          { type := "heading_close", tag := "h1" }],
        titleErrorCode := "E042", titleErrorDescription := "Something bad" } =
      "<h2><a class='self-reference' href='#E042'>E042: Something bad</a></h2>" := by
  rw [(h1_heading_renders_self_reference escapeHtml
      (fun tokens i => match tokens[i]? with
        | some token => token.content
        | none => "")
      { codeBlocks := [], filePath := "docs/errors/E042.md",
        markdownTokens := [{ type := "heading_open", tag := "h1" },
          { type := "inline", content := "E042: Something bad" },
          { type := "heading_close", tag := "h1" }],
        titleErrorCode := "E042", titleErrorDescription := "Something bad" }
      [] []
      { type := "heading_open", tag := "h1" }
      { type := "inline", content := "E042: Something bad" }
      { type := "heading_close", tag := "h1" }
      rfl (by decide) (by decide) (by decide)).2.2]
  decide

/-! ## The claims about the whole run and the title state -/

/-- C16: with an empty corpus the run fails with the corpus-empty error;
otherwise it fails exactly when the collected problem list is not empty, with
the message `found problems in error documents:`, a newline and the problems
joined by newlines in collection order; otherwise it returns the concatenation
of `toHTML()` of the documents in sorted order. -/
theorem load_and_analyze_outcome (basename : String → String → String)
    (lint : String → List Diagnostic) (escape : String → String)
    (defaultRender : List Token → Nat → String) (documentationDirectoryPath : String)
    (loaded : List ErrorDocumentation) :
    (loaded = [] →
      loadAndAnalyzeDocumentFilesToHTMLAsync basename lint escape defaultRender
        documentationDirectoryPath loaded =
        Except.error ("found no .md files in " ++ documentationDirectoryPath)) ∧
    (loaded ≠ [] →
      ((∃ message, loadAndAnalyzeDocumentFilesToHTMLAsync basename lint escape defaultRender
          documentationDirectoryPath loaded = Except.error message) ↔
        analyzeDocuments basename lint (sortDocuments basename loaded) ≠ []) ∧
      (analyzeDocuments basename lint (sortDocuments basename loaded) ≠ [] →
        loadAndAnalyzeDocumentFilesToHTMLAsync basename lint escape defaultRender
          documentationDirectoryPath loaded =
          Except.error ("found problems in error documents:\n" ++
            "\n".intercalate (analyzeDocuments basename lint (sortDocuments basename loaded)))) ∧
      (analyzeDocuments basename lint (sortDocuments basename loaded) = [] →
        loadAndAnalyzeDocumentFilesToHTMLAsync basename lint escape defaultRender
          documentationDirectoryPath loaded =
          Except.ok (String.join ((sortDocuments basename loaded).map
            (fun doc => doc.toHTML escape defaultRender))))) := by
  constructor
  · intro h
    simp [loadAndAnalyzeDocumentFilesToHTMLAsync, h]
  · intro h
    have hlen : ¬ loaded.length = 0 := fun h0 => h (List.length_eq_zero.mp h0)
    have hbad : analyzeDocuments basename lint (sortDocuments basename loaded) ≠ [] →
        loadAndAnalyzeDocumentFilesToHTMLAsync basename lint escape defaultRender
          documentationDirectoryPath loaded =
          Except.error ("found problems in error documents:\n" ++
            "\n".intercalate (analyzeDocuments basename lint (sortDocuments basename loaded))) := by
      intro hp
      have hp2 : (analyzeDocuments basename lint (sortDocuments basename loaded)).length ≠ 0 :=
        fun h0 => hp (List.length_eq_zero.mp h0)
      simp only [loadAndAnalyzeDocumentFilesToHTMLAsync, if_neg hlen, if_pos hp2]
    have hgood : analyzeDocuments basename lint (sortDocuments basename loaded) = [] →
        loadAndAnalyzeDocumentFilesToHTMLAsync basename lint escape defaultRender
          documentationDirectoryPath loaded =
          Except.ok (String.join ((sortDocuments basename loaded).map
            (fun doc => doc.toHTML escape defaultRender))) := by
      intro hp
      simp only [loadAndAnalyzeDocumentFilesToHTMLAsync, if_neg hlen, hp, List.length_nil,
        ne_eq, not_true_eq_false, if_false]
    refine ⟨⟨?_, fun hp => ⟨_, hbad hp⟩⟩, hbad, hgood⟩
    rintro ⟨message, hm⟩ hp
    rw [hgood hp] at hm
    exact absurd hm (by simp)

/-- C16, at a corpus of two documents loaded in the order `E002`, `E001`, the
first block of `E001` yielding no diagnostic. -/
theorem load_and_analyze_outcome_witness :
    loadAndAnalyzeDocumentFilesToHTMLAsync
      (fun filePath _ => if filePath = "docs/errors/E001.md" then "E001" else "E002")
      (fun text => if text = "bad" then [{ code := "E002" }] else [])
      escapeHtml (fun _ _ => "") "docs/errors"
      [{ codeBlocks := ["bad"], filePath := "docs/errors/E002.md", markdownTokens := [],
         titleErrorCode := "E002", titleErrorDescription := "x" },
       { codeBlocks := ["good"], filePath := "docs/errors/E001.md", markdownTokens := [],
         titleErrorCode := "E001", titleErrorDescription := "y" }] =
      Except.error ("found problems in error documents:\n" ++
        "docs/errors/E001.md: error: expected error in first code block but found no errors") := by
  rw [((load_and_analyze_outcome
      (fun filePath _ => if filePath = "docs/errors/E001.md" then "E001" else "E002")
      (fun text => if text = "bad" then [{ code := "E002" }] else [])
      escapeHtml (fun _ _ => "") "docs/errors"
      [{ codeBlocks := ["bad"], filePath := "docs/errors/E002.md", markdownTokens := [],
         titleErrorCode := "E002", titleErrorDescription := "x" },
       { codeBlocks := ["good"], filePath := "docs/errors/E001.md", markdownTokens := [],
         titleErrorCode := "E001", titleErrorDescription := "y" }]).2 (by decide)).2.1
      (by decide)]
  exact congrArg Except.error (by decide)

/-- C17 fails on the code: in `# E001: foo` followed by `## Bar: baz` the
second heading, which is not a top-level one, changes the title: the code is
`E001: fooBar` and the description `baz`, while the first heading alone gives
`E001` and `foo`. -/
theorem later_heading_changes_title :
    (parseString
      (fun _ => [{ type := "heading_open", tag := "h1" },
        { type := "inline", content := "E001: foo" },
        { type := "heading_close", tag := "h1" }])
      "docs/errors/E001.md" "# E001: foo\n").titleErrorCode = "E001" ∧
    (parseString
      (fun _ => [{ type := "heading_open", tag := "h1" },
        { type := "inline", content := "E001: foo" },
        { type := "heading_close", tag := "h1" },
        { type := "heading_open", tag := "h2" },
        { type := "inline", content := "Bar: baz" },
        { type := "heading_close", tag := "h2" }])
      "docs/errors/E001.md" "# E001: foo\n\n## Bar: baz\n").titleErrorCode = "E001: fooBar" ∧
    (parseString
      (fun _ => [{ type := "heading_open", tag := "h1" },
        { type := "inline", content := "E001: foo" },
        { type := "heading_close", tag := "h1" },
        { type := "heading_open", tag := "h2" },
        { type := "inline", content := "Bar: baz" },
        { type := "heading_close", tag := "h2" }])
      "docs/errors/E001.md" "# E001: foo\n\n## Bar: baz\n").titleErrorDescription = "baz" := by
  decide

/-- C18 as stated fails: in `# E001: foo` followed by `# Bar` the later
top-level heading does not match the title pattern, yet the title fields do not
revert to the empty string: they stay `E001` and `foo`. -/
theorem unmatched_later_h1_keeps_title :
    titleMatch "Bar" = none ∧
    (parseString
      (fun _ => [{ type := "heading_open", tag := "h1" },
        { type := "inline", content := "E001: foo" },
        { type := "heading_close", tag := "h1" },
        { type := "heading_open", tag := "h1" },
        { type := "inline", content := "Bar" },
        { type := "heading_close", tag := "h1" }])
      "docs/errors/E001.md" "# E001: foo\n\n# Bar\n").titleErrorCode = "E001" ∧
    (parseString
      (fun _ => [{ type := "heading_open", tag := "h1" },
        { type := "inline", content := "E001: foo" },
        { type := "heading_close", tag := "h1" },
        { type := "heading_open", tag := "h1" },
        { type := "inline", content := "Bar" },
        { type := "heading_close", tag := "h1" }])
      "docs/errors/E001.md" "# E001: foo\n\n# Bar\n").titleErrorDescription = "foo" ∧
    (parseString
      (fun _ => [{ type := "heading_open", tag := "h1" },
        { type := "inline", content := "E001: foo" },
        { type := "heading_close", tag := "h1" },
        { type := "heading_open", tag := "h1" },
        { type := "inline", content := "Bar" },
        { type := "heading_close", tag := "h1" }])
      "docs/errors/E001.md" "# E001: foo\n\n# Bar\n").titleErrorCode ≠ "" := by
  decide

/-- A top-level heading whose text does not match the pattern leaves the title
fields as they were. -/
theorem parseTokens_title_unmatched (st : ParseState) (o i c : Token)
    (ho : o.type = "heading_open" ∧ o.tag = "h1") (hi : i.type = "inline")
    (hc : c.type = "heading_close") (hm : titleMatch i.content = none) :
    (parseTokens st [o, i, c]).titleErrorCode = st.titleErrorCode ∧
      (parseTokens st [o, i, c]).titleErrorDescription = st.titleErrorDescription := by
  simp [parseTokens, parseToken, ho.1, ho.2, hi, hc, hm]

/-- C18, amended: of several top-level headings the last one whose text
matches the title pattern wins.  When the text of the last top-level heading
matches, its groups are the title fields; when it does not match, the title
fields are those of the tokens before that heading and do not revert to the
empty string.  (No heading closes after the heading in question.) -/
theorem last_matching_h1_wins (parse : String → List Token)
    (filePath markdown earlier : String) (post : List Token) (o i c : Token)
    (hparse : parse markdown = parse earlier ++ [o, i, c] ++ post)
    (ho : o.type = "heading_open" ∧ o.tag = "h1") (hi : i.type = "inline")
    (hc : c.type = "heading_close")
    (hpost : ∀ t ∈ post, t.type ≠ "heading_close") :
    (∀ code description, titleMatch i.content = some (code, description) →
      (parseString parse filePath markdown).titleErrorCode = code ∧
      (parseString parse filePath markdown).titleErrorDescription = description) ∧
    (titleMatch i.content = none →
      (parseString parse filePath markdown).titleErrorCode =
        (parseString parse filePath earlier).titleErrorCode ∧
      (parseString parse filePath markdown).titleErrorDescription =
        (parseString parse filePath earlier).titleErrorDescription) := by
  have hrest := parseTokens_no_close
    (parseTokens (parseTokens {} (parse earlier)) [o, i, c]) post hpost
  constructor
  · intro code description hm
    have htitle := parseTokens_title (parseTokens {} (parse earlier)) o i c code description
      ho hi hc hm
    simp only [parseString, hparse, parseTokens_append]
    rw [hrest.1, hrest.2]
    exact htitle
  · intro hm
    have htitle := parseTokens_title_unmatched (parseTokens {} (parse earlier)) o i c
      ho hi hc hm
    simp only [parseString, hparse, parseTokens_append]
    rw [hrest.1, hrest.2]
    exact htitle

/-- C18 amended, at `# E001: foo` followed by `# Bar`. -/
theorem last_matching_h1_wins_witness :
    (parseString
      (fun markdown => if markdown = "# E001: foo\n" then
          [{ type := "heading_open", tag := "h1" },
            { type := "inline", content := "E001: foo" },
            { type := "heading_close", tag := "h1" }]
        else
          [{ type := "heading_open", tag := "h1" },
            { type := "inline", content := "E001: foo" },
            { type := "heading_close", tag := "h1" },
            { type := "heading_open", tag := "h1" },
            { type := "inline", content := "Bar" },
            { type := "heading_close", tag := "h1" }])
      "docs/errors/E001.md" "# E001: foo\n\n# Bar\n").titleErrorCode =
    (parseString
      (fun markdown => if markdown = "# E001: foo\n" then
          [{ type := "heading_open", tag := "h1" },
            { type := "inline", content := "E001: foo" },
            { type := "heading_close", tag := "h1" }]
        else
          [{ type := "heading_open", tag := "h1" },
            { type := "inline", content := "E001: foo" },
            { type := "heading_close", tag := "h1" },
            { type := "heading_open", tag := "h1" },
            { type := "inline", content := "Bar" },
            { type := "heading_close", tag := "h1" }])
      "docs/errors/E001.md" "# E001: foo\n").titleErrorCode :=
  ((last_matching_h1_wins
      (fun markdown => if markdown = "# E001: foo\n" then
          [{ type := "heading_open", tag := "h1" },
            { type := "inline", content := "E001: foo" },
            { type := "heading_close", tag := "h1" }]
        else
          [{ type := "heading_open", tag := "h1" },
            { type := "inline", content := "E001: foo" },
            { type := "heading_close", tag := "h1" },
            { type := "heading_open", tag := "h1" },
            { type := "inline", content := "Bar" },
            { type := "heading_close", tag := "h1" }])
      "docs/errors/E001.md" "# E001: foo\n\n# Bar\n" "# E001: foo\n" []
      { type := "heading_open", tag := "h1" }
      { type := "inline", content := "Bar" }
      { type := "heading_close", tag := "h1" }
      (by decide) (by decide) (by decide) (by decide) (by decide)).2 (by decide)).1

/-! ## The title pattern as a whole -/

/-- A text that splits as `code`, a colon, a run of white space and
`description`, with no line terminator in `code` and `description`, matches. -/
theorem matchCode_isSome_of_split (code w description : List Char)
    (hcode : ∀ ch ∈ code, isLineTerminator ch = false)
    (hw : ∀ ch ∈ w, isWhiteSpace ch = true)
    (hdesc : ∀ ch ∈ description, isLineTerminator ch = false) :
    (matchCode (code ++ ':' :: (w ++ description))).isSome = true := by
  induction code with
  | nil =>
    have hdrop : ∀ ch ∈ (w ++ description).dropWhile isWhiteSpace,
        isLineTerminator ch = false := by
      have hsub : (w ++ description).dropWhile isWhiteSpace =
          description.dropWhile isWhiteSpace := by
        clear hdesc
        induction w with
        | nil => rfl
        | cons x xs ih =>
          have hx : isWhiteSpace x = true := hw x (List.mem_cons_self _ _)
          rw [List.cons_append, List.dropWhile_cons_of_pos hx]
          exact ih (fun ch hch => hw ch (List.mem_cons_of_mem _ hch))
      intro ch hch
      rw [hsub] at hch
      exact hdesc ch ((List.dropWhile_suffix _).subset hch)
    simp only [List.nil_append]
    unfold matchCode
    cases hm : matchCode (w ++ description) with
    | some r => simp [show isLineTerminator ':' = false by decide]
    | none =>
      simp [show isLineTerminator ':' = false by decide, matchSpaces_eq,
        matchDescription_of_noLT _ hdrop]
  | cons c cs ih =>
    have hc : isLineTerminator c = false := hcode c (List.mem_cons_self _ _)
    have ih' := ih (fun ch hch => hcode ch (List.mem_cons_of_mem _ hch))
    simp only [List.cons_append]
    unfold matchCode
    cases hm : matchCode (cs ++ ':' :: (w ++ description)) with
    | some r => simp [hc]
    | none => rw [hm] at ih'; exact absurd ih' (by simp)

/-- C19 as stated fails: the text `a:\nb:c` matches the title pattern although
a line terminator stands outside the white space after its last colon, and the
description group `b:c` holds a colon. -/
theorem title_description_may_hold_colon :
    titleMatch "a:\nb:c" = some ("a", "b:c") ∧ ':' ∈ "b:c".data := by
  decide

/-- C19, amended: when the title pattern matches a text, the text is `code`, a
colon, a run `w` of white space and `description`; `code` and `description` hold
no line terminator, `description` does not start with white space, and
`description` holds no colon when `w` holds no line terminator (then `code` is
the text before the last colon).  The pattern fails to match exactly when the
text has no such split: no colon has only characters other than line
terminators before it and, after the white space that follows it, only
characters other than line terminators. -/
theorem title_pattern_groups (t : String) :
    (∀ code description : String, titleMatch t = some (code, description) →
      ∃ w : String, t = code ++ ":" ++ w ++ description ∧
        (∀ ch ∈ w.data, isWhiteSpace ch = true) ∧
        (∀ ch ∈ code.data, isLineTerminator ch = false) ∧
        (∀ ch ∈ description.data, isLineTerminator ch = false) ∧
        (∀ ch, description.data.head? = some ch → isWhiteSpace ch = false) ∧
        ((∀ ch ∈ w.data, isLineTerminator ch = false) → ':' ∉ description.data)) ∧
    (titleMatch t = none ↔
      ¬ ∃ code w description : List Char, t.data = code ++ ':' :: (w ++ description) ∧
        (∀ ch ∈ code, isLineTerminator ch = false) ∧
        (∀ ch ∈ w, isWhiteSpace ch = true) ∧
        (∀ ch ∈ description, isLineTerminator ch = false)) := by
  constructor
  · intro code description hm
    unfold titleMatch at hm
    cases hmc : matchCode t.data with
    | none => rw [hmc] at hm; exact absurd hm (by simp)
    | some r =>
      rw [hmc] at hm
      simp only [Option.map_some', Option.some.injEq, Prod.mk.injEq] at hm
      obtain ⟨hcode, hdesc⟩ := hm
      obtain ⟨w, hs, hw, hcl, hdl, hhead, hlast⟩ := matchCode_eq_some t.data r.1 r.2 hmc
      have hcd : code.data = r.1 := by rw [← hcode]
      have hdd : description.data = r.2 := by rw [← hdesc]
      refine ⟨String.mk w, ?_, hw, ?_, ?_, ?_, ?_⟩
      · apply String.ext
        simp only [String.data_append, hcd, hdd, hs]
        simp
      · rw [hcd]; exact hcl
      · rw [hdd]; exact hdl
      · rw [hdd]; exact hhead
      · rw [hdd]; exact hlast
  · unfold titleMatch
    constructor
    · intro hnone
      rintro ⟨code, w, description, hs, hcode, hw, hdesc⟩
      have hsome := matchCode_isSome_of_split code w description hcode hw hdesc
      rw [← hs] at hsome
      cases hmc : matchCode t.data with
      | none => rw [hmc] at hsome; exact absurd hsome (by simp)
      | some r => rw [hmc] at hnone; exact absurd hnone (by simp)
    · intro hno
      cases hmc : matchCode t.data with
      | none => rfl
      | some r =>
        exfalso
        obtain ⟨w, hs, hw, hcl, hdl, -, -⟩ := matchCode_eq_some t.data r.1 r.2 hmc
        exact hno ⟨r.1, w, r.2, hs, hcl, hw, hdl⟩

/-- C19 amended, at the text `E042: foo: bar`. -/
theorem title_pattern_groups_witness :
    ∃ w : String, "E042: foo: bar" = "E042: foo" ++ ":" ++ w ++ "bar" ∧
      (∀ ch ∈ w.data, isWhiteSpace ch = true) ∧
      (∀ ch ∈ "E042: foo".data, isLineTerminator ch = false) ∧
      (∀ ch ∈ "bar".data, isLineTerminator ch = false) ∧
      (∀ ch, "bar".data.head? = some ch → isWhiteSpace ch = false) ∧
      ((∀ ch ∈ w.data, isLineTerminator ch = false) → ':' ∉ "bar".data) :=
  (title_pattern_groups "E042: foo: bar").1 "E042: foo" "bar" (by decide)

/-! ## The frame of the validator -/

/-- C20: the validator only appends, and what it appends does not depend on
what the list holds: the list after the call is the initial list followed by the
list produced from an empty one, the engine is driven alike, and every appended
problem begins with `doc.filePath + ": error: "`. -/
theorem analyze_only_appends (basename : String → String → String)
    (lint : String → List Diagnostic) (doc : ErrorDocumentation) (foundProblems : List String) :
    (analyzeErrorDocumentationAsync basename lint doc foundProblems).foundProblems =
      foundProblems ++ (analyzeErrorDocumentationAsync basename lint doc []).foundProblems ∧
    (analyzeErrorDocumentationAsync basename lint doc foundProblems).process =
      (analyzeErrorDocumentationAsync basename lint doc []).process ∧
    ∀ p ∈ (analyzeErrorDocumentationAsync basename lint doc []).foundProblems,
      ∃ tail, p = doc.filePath ++ ": error: " ++ tail := by
  refine ⟨?_, ?_, ?_⟩
  · rw [analyze_foundProblems basename lint doc foundProblems,
      analyze_foundProblems basename lint doc [], List.nil_append]
  · rw [analyze_process, analyze_process]
  · intro p hp
    rw [analyze_foundProblems, List.nil_append, List.mem_append] at hp
    rcases hp with hp | hp
    · by_cases hne : doc.titleErrorCode ≠ doc.filePathErrorCode basename
      · rw [if_pos hne, List.mem_singleton] at hp
        refine ⟨"file name doesn't match error code in title (" ++ doc.titleErrorCode ++ ")", ?_⟩
        rw [hp]
        apply String.ext
        simp [String.data_append]
      · rw [if_neg hne] at hp
        exact absurd hp (List.not_mem_nil _)
    · cases hcb : doc.codeBlocks with
      | nil =>
        rw [hcb, List.mem_singleton] at hp
        refine ⟨"missing code blocks", ?_⟩
        rw [hp]
        apply String.ext
        simp [String.data_append]
      | cons codeBlock codeBlocks =>
        rw [hcb] at hp
        simp only [List.mem_append] at hp
        rcases hp with hp | hp
        · by_cases hl : lint codeBlock = []
          · rw [if_pos hl, List.mem_singleton] at hp
            refine ⟨"expected error in first code block but found no errors", ?_⟩
            rw [hp]
            apply String.ext
            simp [String.data_append]
          · rw [if_neg hl, List.mem_map] at hp
            obtain ⟨diag, -, hd⟩ := hp
            refine ⟨"expected only " ++ doc.titleErrorCode ++
              " errors in first code block but found " ++ diag.code, ?_⟩
            rw [← hd]
            apply String.ext
            simp [String.data_append]
        · rw [List.mem_flatMap] at hp
          obtain ⟨q, -, hq⟩ := hp
          by_cases hl : lint q.2 = []
          · rw [if_pos hl] at hq
            exact absurd hq (List.not_mem_nil _)
          · rw [if_neg hl, List.mem_singleton] at hq
            refine ⟨"expected no error in code block #" ++ toString (q.1 + 1) ++
              " but found errors", ?_⟩
            rw [hq]
            apply String.ext
            simp [String.data_append]

/-! ## Auxiliary facts about the string comparison and the sort -/

theorem codeUnitsLess_asymm (a b : List Nat) (h : codeUnitsLess a b = true) :
    codeUnitsLess b a = false := by
  induction a generalizing b with
  | nil =>
    cases b with
    | nil => simp [codeUnitsLess] at h
    | cons y bs => simp [codeUnitsLess]
  | cons x as ih =>
    cases b with
    | nil => simp [codeUnitsLess] at h
    | cons y bs =>
      simp only [codeUnitsLess] at h ⊢
      by_cases h1 : x < y
      · have h2 : ¬ y < x := by omega
        simp [h1, h2]
      · by_cases h2 : y < x
        · simp [h1, h2] at h
        · simp only [h1, h2, if_false] at h ⊢
          exact ih bs h

theorem codeUnitsLess_trans_false (a b c : List Nat) (hab : codeUnitsLess b a = false)
    (hbc : codeUnitsLess c b = false) : codeUnitsLess c a = false := by
  induction a generalizing b c with
  | nil => cases c <;> simp [codeUnitsLess]
  | cons x as ih =>
    cases b with
    | nil => simp [codeUnitsLess] at hab
    | cons y bs =>
      cases c with
      | nil => simp [codeUnitsLess] at hbc
      | cons z cs =>
        simp only [codeUnitsLess] at hab hbc ⊢
        by_cases h1 : y < x
        · simp [h1] at hab
        · by_cases h2 : z < y
          · simp [h2] at hbc
          · have h3 : ¬ z < x := by omega
            simp only [h1, h2, h3, if_false] at hab hbc ⊢
            by_cases h4 : x < z
            · simp [h4]
            · have h5 : ¬ x < y := by omega
              have h6 : ¬ y < z := by omega
              simp only [h4, h5, h6, if_false] at hab hbc ⊢
              exact ih bs cs hab hbc

theorem codeUnitsLess_antisymm (a b : List Nat) (hab : codeUnitsLess a b = false)
    (hba : codeUnitsLess b a = false) : a = b := by
  induction a generalizing b with
  | nil =>
    cases b with
    | nil => rfl
    | cons y bs => simp [codeUnitsLess] at hab
  | cons x as ih =>
    cases b with
    | nil => simp [codeUnitsLess] at hba
    | cons y bs =>
      simp only [codeUnitsLess] at hab hba
      by_cases h1 : x < y
      · simp [h1] at hab
      · by_cases h2 : y < x
        · simp [h2] at hba
        · simp only [h1, h2, if_false] at hab hba
          have hxy : x = y := by omega
          rw [hxy, ih bs hab hba]

theorem char_toNat_valid (c : Char) :
    c.toNat < 0xD800 ∨ (0xDFFF < c.toNat ∧ c.toNat < 0x110000) := by
  have := c.valid
  simpa [UInt32.isValidChar, Nat.isValidChar] using this

theorem char_eq_of_toNat_eq (c d : Char) (h : c.toNat = d.toNat) : c = d := by
  rw [← Char.ofNat_toNat c, ← Char.ofNat_toNat d, h]

/-- Two strings with the same UTF-16 code units are equal. -/
theorem flatMap_utf16CodeUnits_injective (l1 l2 : List Char)
    (h : l1.flatMap utf16CodeUnits = l2.flatMap utf16CodeUnits) : l1 = l2 := by
  induction l1 generalizing l2 with
  | nil =>
    cases l2 with
    | nil => rfl
    | cons d ds =>
      simp only [List.flatMap_nil, List.flatMap_cons, utf16CodeUnits] at h
      split_ifs at h <;> simp at h
  | cons c cs ih =>
    cases l2 with
    | nil =>
      simp only [List.flatMap_nil, List.flatMap_cons, utf16CodeUnits] at h
      split_ifs at h <;> simp at h
    | cons d ds =>
      have hc := char_toNat_valid c
      have hd := char_toNat_valid d
      simp only [List.flatMap_cons, utf16CodeUnits] at h
      split_ifs at h with h1 h2 h2
      · simp only [List.cons_append, List.nil_append, List.cons.injEq] at h
        rw [char_eq_of_toNat_eq c d h.1, ih ds h.2]
      · simp only [List.cons_append, List.nil_append, List.cons.injEq] at h
        omega
      · simp only [List.cons_append, List.nil_append, List.cons.injEq] at h
        omega
      · simp only [List.cons_append, List.nil_append, List.cons.injEq] at h
        have hcd : c.toNat = d.toNat := by omega
        rw [char_eq_of_toNat_eq c d hcd, ih ds h.2.2]

theorem toCodeUnits_injective (a b : String) (h : toCodeUnits a = toCodeUnits b) : a = b :=
  String.ext (flatMap_utf16CodeUnits_injective a.data b.data h)

/-- The comparator is not positive exactly when the second code is not less
than the first. -/
theorem compareDocuments_le_iff (basename : String → String → String)
    (a b : ErrorDocumentation) :
    compareDocuments basename a b ≤ 0 ↔
      stringLess (b.filePathErrorCode basename) (a.filePathErrorCode basename) = false := by
  unfold compareDocuments
  by_cases h1 : stringLess (a.filePathErrorCode basename) (b.filePathErrorCode basename) = true
  · have h2 := codeUnitsLess_asymm _ _ h1
    rw [if_pos h1]
    exact ⟨fun _ => h2, fun _ => by decide⟩
  · rw [if_neg h1]
    by_cases h2 : stringLess (b.filePathErrorCode basename) (a.filePathErrorCode basename) = true
    · rw [if_pos h2]
      exact ⟨fun h => absurd h (by decide), fun h => by rw [h2] at h; exact absurd h (by simp)⟩
    · rw [if_neg h2]
      exact ⟨fun _ => by simpa using h2, fun _ => le_refl 0⟩

theorem sortDocuments_sorted (basename : String → String → String)
    (documents : List ErrorDocumentation) :
    List.Sorted (fun a b => compareDocuments basename a b ≤ 0)
      (sortDocuments basename documents) := by
  haveI : IsTotal ErrorDocumentation (fun a b => compareDocuments basename a b ≤ 0) :=
    ⟨fun a b => by
      simp only [compareDocuments_le_iff]
      by_cases h : stringLess (b.filePathErrorCode basename)
          (a.filePathErrorCode basename) = true
      · exact Or.inr (codeUnitsLess_asymm _ _ h)
      · exact Or.inl (by simpa using h)⟩
  haveI : IsTrans ErrorDocumentation (fun a b => compareDocuments basename a b ≤ 0) :=
    ⟨fun a b c hab hbc => by
      simp only [compareDocuments_le_iff] at hab hbc ⊢
      exact codeUnitsLess_trans_false _ _ _ hab hbc⟩
  exact List.sorted_insertionSort _ documents

/-- With pairwise distinct file codes the sorted list is in strictly ascending
order of file code. -/
theorem sortDocuments_strict (basename : String → String → String)
    (documents : List ErrorDocumentation)
    (hdistinct : (documents.map (fun doc => doc.filePathErrorCode basename)).Nodup) :
    List.Sorted
      (fun a b => stringLess (a.filePathErrorCode basename) (b.filePathErrorCode basename) = true)
      (sortDocuments basename documents) := by
  have hsorted := sortDocuments_sorted basename documents
  have hperm : (sortDocuments basename documents).Perm documents :=
    List.perm_insertionSort _ documents
  have hnodup : ((sortDocuments basename documents).map
      (fun doc => doc.filePathErrorCode basename)).Nodup :=
    (hperm.map _).nodup_iff.mpr hdistinct
  have hne : List.Pairwise
      (fun a b : ErrorDocumentation => a.filePathErrorCode basename ≠ b.filePathErrorCode basename)
      (sortDocuments basename documents) := by
    rw [List.Nodup, List.pairwise_map] at hnodup
    exact hnodup
  refine (List.Pairwise.and hsorted hne).imp ?_
  intro a b hab
  obtain ⟨hle, hneq⟩ := hab
  rw [compareDocuments_le_iff] at hle
  by_contra hnot
  have hfalse : stringLess (a.filePathErrorCode basename) (b.filePathErrorCode basename) = false := by
    simpa using hnot
  exact hneq (toCodeUnits_injective _ _ (codeUnitsLess_antisymm _ _ hfalse hle))

/-! ## The claim about the sort -/

/-- C15 as stated fails: two documents with the same file code `E001` are left
in the order they were loaded in, so the two orders of loading give two
different sorted lists. -/
theorem sort_depends_on_order_of_equal_codes :
    @List.Perm ErrorDocumentation
      [{ codeBlocks := [], filePath := "b/E001.md", markdownTokens := [],
         titleErrorCode := "E001", titleErrorDescription := "second" },
       { codeBlocks := [], filePath := "a/E001.md", markdownTokens := [],
         titleErrorCode := "E001", titleErrorDescription := "first" }]
      [{ codeBlocks := [], filePath := "a/E001.md", markdownTokens := [],
         titleErrorCode := "E001", titleErrorDescription := "first" },
       { codeBlocks := [], filePath := "b/E001.md", markdownTokens := [],
         titleErrorCode := "E001", titleErrorDescription := "second" }] ∧
    sortDocuments
      (fun filePath _ =>
        if filePath = "a/E001.md" ∨ filePath = "b/E001.md" then "E001" else filePath)
      [{ codeBlocks := [], filePath := "b/E001.md", markdownTokens := [],
         titleErrorCode := "E001", titleErrorDescription := "second" },
       { codeBlocks := [], filePath := "a/E001.md", markdownTokens := [],
         titleErrorCode := "E001", titleErrorDescription := "first" }] ≠
    sortDocuments
      (fun filePath _ =>
        if filePath = "a/E001.md" ∨ filePath = "b/E001.md" then "E001" else filePath)
      [{ codeBlocks := [], filePath := "a/E001.md", markdownTokens := [],
         titleErrorCode := "E001", titleErrorDescription := "first" },
       { codeBlocks := [], filePath := "b/E001.md", markdownTokens := [],
         titleErrorCode := "E001", titleErrorDescription := "second" }] :=
  ⟨List.Perm.swap _ _ _, by decide⟩

/-- C15, amended: for every list of documents the sort step yields a
permutation of the list in ascending order of `filePathErrorCode` (compared as
JavaScript compares strings); and when the file codes of the list are pairwise
distinct, every permutation of the list is sorted to the identical list. -/
theorem sort_ascending_and_order_independent (basename : String → String → String)
    (documents : List ErrorDocumentation) :
    List.Pairwise
      (fun a b =>
        stringLess (b.filePathErrorCode basename) (a.filePathErrorCode basename) = false)
      (sortDocuments basename documents) ∧
    (sortDocuments basename documents).Perm documents ∧
    ((documents.map (fun doc => doc.filePathErrorCode basename)).Nodup →
      ∀ permuted : List ErrorDocumentation, permuted.Perm documents →
        sortDocuments basename permuted = sortDocuments basename documents) := by
  have hperm : (sortDocuments basename documents).Perm documents :=
    List.perm_insertionSort _ documents
  refine ⟨?_, hperm, ?_⟩
  · refine (sortDocuments_sorted basename documents).imp ?_
    intro a b hab
    exact (compareDocuments_le_iff basename a b).mp hab
  · intro hdistinct permuted hpermuted
    have hdistinct2 : (permuted.map (fun doc => doc.filePathErrorCode basename)).Nodup :=
      (hpermuted.map _).nodup_iff.mpr hdistinct
    have h1 := sortDocuments_strict basename permuted hdistinct2
    have h2 := sortDocuments_strict basename documents hdistinct
    have hp : (sortDocuments basename permuted).Perm (sortDocuments basename documents) :=
      ((List.perm_insertionSort _ permuted).trans hpermuted).trans hperm.symm
    haveI : IsAntisymm ErrorDocumentation
        (fun a b => stringLess (a.filePathErrorCode basename)
          (b.filePathErrorCode basename) = true) :=
      ⟨fun a b hab hba => by
        have := codeUnitsLess_asymm _ _ hab
        unfold stringLess at hba
        rw [this] at hba
        exact absurd hba (by simp)⟩
    exact List.eq_of_perm_of_sorted hp h1 h2

/-- C15 amended, at the documents `E002`, `E001` loaded in either order. -/
theorem sort_ascending_and_order_independent_witness :
    sortDocuments
      (fun filePath _ => if filePath = "docs/errors/E001.md" then "E001" else "E002")
      [{ codeBlocks := [], filePath := "docs/errors/E001.md", markdownTokens := [],
         titleErrorCode := "E001", titleErrorDescription := "y" },
       { codeBlocks := [], filePath := "docs/errors/E002.md", markdownTokens := [],
         titleErrorCode := "E002", titleErrorDescription := "x" }] =
    sortDocuments
      (fun filePath _ => if filePath = "docs/errors/E001.md" then "E001" else "E002")
      [{ codeBlocks := [], filePath := "docs/errors/E002.md", markdownTokens := [],
         titleErrorCode := "E002", titleErrorDescription := "x" },
       { codeBlocks := [], filePath := "docs/errors/E001.md", markdownTokens := [],
         titleErrorCode := "E001", titleErrorDescription := "y" }] :=
  (sort_ascending_and_order_independent
    (fun filePath _ => if filePath = "docs/errors/E001.md" then "E001" else "E002")
    [{ codeBlocks := [], filePath := "docs/errors/E002.md", markdownTokens := [],
       titleErrorCode := "E002", titleErrorDescription := "x" },
     { codeBlocks := [], filePath := "docs/errors/E001.md", markdownTokens := [],
       titleErrorCode := "E001", titleErrorDescription := "y" }]).2.2 (by decide) _
    (List.Perm.swap _ _ _)

end ErrorDocs
